import Mathlib

/-!
Shallow embedding of the chatting-API backend (`src/app`): the data model
(`app/models/models.py`), the request handlers of `app/routers/chats.py`,
`app/routers/messages.py` and `app/routers/files.py`, and the pydantic
validation of `app/schemas/schemas.py` that runs before a handler.

Conventions of the embedding:
* UUID primary keys are modelled as `Nat`, drawn from a fresh-id counter
  `next_id` (collision-freedom of `uuid4` becomes the well-formedness
  predicate `DB.wf`).
* Wall-clock timestamp columns (`created_at`, `updated_at`, `joined_at`,
  `uploaded_at`, `last_used_at`) are not modelled: no verified claim
  depends on time.
* The authenticated caller (`Depends(get_current_active_user)`) is passed
  as a resolved user id; credential resolution is out of scope.
* A handler is a pure function from the database state to
  `Except HTTPError (response × database)`.  An `HTTPException` raised
  before `db.commit()` leaves the store unchanged, which the `Except.error`
  branch models by returning no new state.
* SQLAlchemy specifics are modelled as they behave: `query(...).first()`
  is `List.find?`, a Python `set` of ids is `List.dedup` / `List.toFinset`,
  and — decisive for the delete endpoints — none of the `relationship`
  declarations in `models.py` carries a delete cascade, so deleting a
  parent row makes the ORM null out the foreign key of its loaded children
  (`ChatMember.chat_id`, `Message.chat_id`, `MessageStatus.message_id`,
  `Message.file_id` are nullable columns).  Those foreign keys are
  therefore `Option Nat` here, and a delete maps matching children to
  `none` instead of removing them.
-/

namespace ChattingApi

/-- A FastAPI `HTTPException`: status code and detail string. -/
structure HTTPError where
  status_code : Nat
  detail : String
deriving DecidableEq, Repr

/-- Row of `ostad_chats` (`models.Chat`): id, optional display name
(null for individual chats), group flag. -/
structure Chat where
  id : Nat
  name : Option String
  is_group : Bool
deriving DecidableEq, Repr

/-- Row of `ostad_chat_members` (`models.ChatMember`).  `chat_id` is a
nullable foreign key (nulled by the ORM if the owning chat is deleted). -/
structure ChatMember where
  id : Nat
  chat_id : Option Nat
  user_id : Nat
  is_admin : Bool
deriving DecidableEq, Repr

/-- Row of `ostad_messages` (`models.Message`).  `chat_id` and `file_id`
are nullable foreign keys. -/
structure Message where
  id : Nat
  chat_id : Option Nat
  sender_id : Nat
  content : String
  file_id : Option Nat
deriving DecidableEq, Repr

/-- Row of `ostad_message_statuses` (`models.MessageStatus`).  `status` is
the string column holding `sent`, `delivered` or `seen`; `message_id` is a
nullable foreign key (nulled by the ORM if the message is deleted). -/
structure MessageStatus where
  id : Nat
  message_id : Option Nat
  user_id : Nat
  status : String
deriving DecidableEq, Repr

/-- Row of `ostad_files` (`models.File`): metadata plus the raw byte
payload (`data`), bytes modelled as `Nat`s. -/
structure File where
  id : Nat
  filename : String
  content_type : String
  size : Nat
  data : List Nat
deriving DecidableEq, Repr

/-- The relational store reachable through the session.  Users are kept as
their ids only: of `models.User` the verified endpoints consult nothing but
existence of the row (`query(User).filter(User.id == ...).first()`).
`next_id` generates fresh primary keys. -/
structure DB where
  users : List Nat
  chats : List Chat
  chat_members : List ChatMember
  messages : List Message
  message_statuses : List MessageStatus
  files : List File
  next_id : Nat
deriving DecidableEq, Repr

/-- Request body `schemas.ChatCreate`. -/
structure ChatCreate where
  name : Option String
  is_group : Bool
  member_ids : List Nat
deriving DecidableEq, Repr

/-- Request body `schemas.ChatUpdate`. -/
structure ChatUpdate where
  name : Option String
deriving DecidableEq, Repr

/-- Request body `schemas.MessageCreate`. -/
structure MessageCreate where
  content : String
  file_id : Option Nat
deriving DecidableEq, Repr

/-- Request body `schemas.MessageUpdate`. -/
structure MessageUpdate where
  content : Option String
deriving DecidableEq, Repr

/-- `db.query(User).filter(User.id == uid).first() is not None`. -/
def user_exists (db : DB) (uid : Nat) : Bool :=
  db.users.contains uid

/-- `db.query(ChatMember).filter(ChatMember.chat_id == cid).all()`. -/
def members_of (db : DB) (cid : Nat) : List ChatMember :=
  db.chat_members.filter (fun m => m.chat_id == some cid)

/-- The Python set `{member.user_id for member in members}` built in the
dedup loop of `create_chat` and compared by size and membership. -/
def member_finset (db : DB) (cid : Nat) : Finset Nat :=
  ((members_of db cid).map (fun m => m.user_id)).toFinset

/-- Membership check used by every chat-scoped endpoint:
`query(ChatMember).filter(chat_id == cid, user_id == u).first() is not None`. -/
def is_member (db : DB) (cid u : Nat) : Bool :=
  db.chat_members.any (fun m => m.chat_id == some cid && m.user_id == u)

/-- Admin check: `query(ChatMember).filter(chat_id == cid, user_id == u,
is_admin == True).first() is not None`. -/
def is_chat_admin (db : DB) (cid u : Nat) : Bool :=
  db.chat_members.any (fun m => m.chat_id == some cid && m.user_id == u && m.is_admin)

/-- `query(Message).filter(Message.id == mid, Message.chat_id == cid).first()`. -/
def find_message (db : DB) (cid mid : Nat) : Option Message :=
  db.messages.find? (fun m => m.id == mid && m.chat_id == some cid)

/-- One member entry of the `get_chat_response` dict (the `username` and
`joined_at` entries are not modelled: usernames and timestamps are outside
the embedding). -/
structure ChatMemberView where
  user_id : Nat
  is_admin : Bool
deriving DecidableEq, Repr

/-- The `get_chat_response` dict of `chats.py` (timestamps and the
`last_message` entry — ordered by `created_at`, hence time — are not
modelled). -/
structure ChatView where
  id : Nat
  name : Option String
  is_group : Bool
  members : List ChatMemberView
deriving DecidableEq, Repr

/-- `get_chat_response(db, chat_id, ...)` of `chats.py`.  Every caller has
established that the chat row exists; on a missing row Python would crash
on `None`, the embedding returns a junk chat of the same id. -/
def get_chat_response (db : DB) (cid : Nat) : ChatView :=
  let c := (db.chats.find? (fun c => c.id == cid)).getD ⟨cid, none, false⟩
  { id := c.id
    name := c.name
    is_group := c.is_group
    members := (members_of db cid).map (fun m => ⟨m.user_id, m.is_admin⟩) }

/-- The resolved member set of `create_chat`:
`member_ids = set(chat.member_ids); member_ids.add(current_user.id)`.
A Python set is a duplicate-free collection; the embedding keeps it as a
duplicate-free list (`dedup`, requester appended if absent). -/
def resolved_member_list (current_user : Nat) (member_ids : List Nat) : List Nat :=
  if current_user ∈ member_ids.dedup then member_ids.dedup
  else member_ids.dedup ++ [current_user]

/-- The filter of the dedup lookup in `create_chat`: non-group chats
joined with a membership row of the requester. -/
def individual_candidate (db : DB) (u : Nat) (c : Chat) : Bool :=
  c.is_group == false && db.chat_members.any (fun m => m.chat_id == some c.id && m.user_id == u)

/-- Body of the dedup loop in `create_chat`:
`len(member_ids_set) == 2 and other_user_id in member_ids_set`. -/
def member_set_matches (db : DB) (other_user_id : Nat) (c : Chat) : Bool :=
  (member_finset db c.id).card == 2 && decide (other_user_id ∈ member_finset db c.id)

/-- Number a list of rows with consecutive fresh primary keys starting at
`k` (the embedding's stand-in for one `uuid4()` per inserted row). -/
def number_rows (f : Nat → α → β) : Nat → List α → List β
  | _, [] => []
  | k, a :: rest => f k a :: number_rows f (k + 1) rest

/-- The `ChatMember` rows inserted by `create_chat` for a fresh chat `cid`:
one row per resolved member, `is_admin` exactly for the requester
(`is_admin = member_id == current_user.id`). -/
def chat_member_rows (cid current_user : Nat) (member_ids : List Nat) : List ChatMember :=
  number_rows (fun k uid => ⟨k, some cid, uid, uid == current_user⟩) (cid + 1) member_ids

/-- The creation tail of `create_chat` (`# Create new chat` onwards):
insert the `Chat` row, then one `ChatMember` row per resolved member, and
return the assembled view. -/
def create_chat_new (db : DB) (current_user : Nat) (p : ChatCreate)
    (member_ids : List Nat) : ChatView × DB :=
  let cid := db.next_id
  let rows := chat_member_rows cid current_user member_ids
  let db' : DB := { db with
    chats := db.chats ++ [⟨cid, p.name, p.is_group⟩]
    chat_members := db.chat_members ++ rows
    next_id := cid + 1 + member_ids.length }
  (get_chat_response db' cid, db')

/-- `create_chat` of `chats.py`: resolve the member set, check every
member exists, run the individual-chat dedup lookup when the chat is
non-group with exactly two resolved members, otherwise insert the new chat
with its member rows. -/
def create_chat (db : DB) (current_user : Nat) (p : ChatCreate) :
    Except HTTPError (ChatView × DB) :=
  match (resolved_member_list current_user p.member_ids).find? (fun m => !user_exists db m) with
  | some m => .error ⟨404, "User with ID " ++ toString m ++ " not found"⟩
  | none =>
    if p.is_group == false && (resolved_member_list current_user p.member_ids).length == 2 then
      match (resolved_member_list current_user p.member_ids).find? (fun i => i != current_user) with
      | some other_user_id =>
        match (db.chats.filter (individual_candidate db current_user)).find?
            (member_set_matches db other_user_id) with
        | some existing => .ok (get_chat_response db existing.id, db)
        | none => .ok (create_chat_new db current_user p (resolved_member_list current_user p.member_ids))
      | none => .ok (create_chat_new db current_user p (resolved_member_list current_user p.member_ids))
    else .ok (create_chat_new db current_user p (resolved_member_list current_user p.member_ids))

/-- `read_chat` of `chats.py`: member-gated read, 404 for non-members. -/
def read_chat (db : DB) (cid current_user : Nat) :
    Except HTTPError ChatView :=
  if is_member db cid current_user then .ok (get_chat_response db cid)
  else .error ⟨404, "Chat not found"⟩

/-- `update_chat` of `chats.py`: admin check first (403), then chat lookup
(404), then the optional name update. -/
def update_chat (db : DB) (cid current_user : Nat) (p : ChatUpdate) :
    Except HTTPError (ChatView × DB) :=
  if is_chat_admin db cid current_user then
    match db.chats.find? (fun c => c.id == cid) with
    | none => .error ⟨404, "Chat not found"⟩
    | some _ =>
      let db' : DB := { db with
        chats := db.chats.map (fun c =>
          if c.id == cid then
            match p.name with
            | some n => { c with name := some n }
            | none => c
          else c) }
      .ok (get_chat_response db' cid, db')
  else .error ⟨403, "Not authorized to update chat"⟩

/-- `delete_chat` of `chats.py`: admin check (403), chat lookup (404),
then `db.delete(db_chat)`.  `models.Chat.members` and
`models.Chat.messages` carry no delete cascade, so the ORM nulls the
`chat_id` of the chat's member and message rows instead of deleting them. -/
def delete_chat (db : DB) (cid current_user : Nat) :
    Except HTTPError DB :=
  if is_chat_admin db cid current_user then
    match db.chats.find? (fun c => c.id == cid) with
    | none => .error ⟨404, "Chat not found"⟩
    | some _ =>
      .ok { db with
        chats := db.chats.filter (fun c => !(c.id == cid))
        chat_members := db.chat_members.map (fun m =>
          if m.chat_id == some cid then { m with chat_id := none } else m)
        messages := db.messages.map (fun m =>
          if m.chat_id == some cid then { m with chat_id := none } else m) }
  else .error ⟨403, "Not authorized to delete chat"⟩

/-- `add_chat_member` of `chats.py`: admin check (403), chat lookup (404),
group check (400), user-existence check (404), duplicate-membership check
(400), then insert of a non-admin membership row. -/
def add_chat_member (db : DB) (cid user_id current_user : Nat) :
    Except HTTPError (ChatView × DB) :=
  if is_chat_admin db cid current_user then
    match db.chats.find? (fun c => c.id == cid) with
    | none => .error ⟨404, "Chat not found"⟩
    | some c =>
      if !c.is_group then .error ⟨400, "Cannot add members to individual chat"⟩
      else if !user_exists db user_id then .error ⟨404, "User not found"⟩
      else if is_member db cid user_id then
        .error ⟨400, "User is already a member of chat"⟩
      else
        let db' : DB := { db with
          chat_members := db.chat_members ++ [⟨db.next_id, some cid, user_id, false⟩]
          next_id := db.next_id + 1 }
        .ok (get_chat_response db' cid, db')
  else .error ⟨403, "Not authorized to add members"⟩

/-- `remove_chat_member` of `chats.py`: the caller must be an admin or be
removing themself (403 otherwise), the chat must exist (404) and be a
group (400), the target must hold a membership row (404); then
`db.delete(db_chat_member)` removes the row found by `.first()`. -/
def remove_chat_member (db : DB) (cid user_id current_user : Nat) :
    Except HTTPError (ChatView × DB) :=
  if is_chat_admin db cid current_user || current_user == user_id then
    match db.chats.find? (fun c => c.id == cid) with
    | none => .error ⟨404, "Chat not found"⟩
    | some c =>
      if !c.is_group then .error ⟨400, "Cannot remove members from individual chat"⟩
      else
        match db.chat_members.find? (fun m => m.chat_id == some cid && m.user_id == user_id) with
        | none => .error ⟨404, "User is not a member of chat"⟩
        | some _ =>
          let db' : DB := { db with
            chat_members := db.chat_members.eraseP
              (fun m => m.chat_id == some cid && m.user_id == user_id) }
          .ok (get_chat_response db' cid, db')
  else .error ⟨403, "Not authorized to remove members"⟩

/-- The `MessageStatus` rows fanned out by `create_message` for a fresh
message `mid`: one row per current `ChatMember` row of the chat, `seen`
for the sender, `sent` for everyone else. -/
def message_status_rows (mid sender : Nat) (members : List ChatMember) :
    List MessageStatus :=
  number_rows (fun k m =>
    ⟨k, some mid, m.user_id, if m.user_id == sender then "seen" else "sent"⟩) (mid + 1) members

/-- `create_message` of `messages.py`: membership check (404), optional
file-existence check (404), insert of the `Message` row and of one
`MessageStatus` row per current chat member. -/
def create_message (db : DB) (cid current_user : Nat) (p : MessageCreate) :
    Except HTTPError (Nat × DB) :=
  if is_member db cid current_user then
    if (match p.file_id with
        | some fid => db.files.any (fun f => f.id == fid)
        | none => true) then
      .ok (db.next_id, { db with
        messages := db.messages
          ++ [⟨db.next_id, some cid, current_user, p.content, p.file_id⟩]
        message_statuses := db.message_statuses
          ++ message_status_rows db.next_id current_user (members_of db cid)
        next_id := db.next_id + 1 + (members_of db cid).length })
    else .error ⟨404, "File not found"⟩
  else .error ⟨404, "Chat not found"⟩

/-- `update_message` of `messages.py`: membership check (404), message
lookup (404), sender-only check (403), then the optional content update. -/
def update_message (db : DB) (cid mid current_user : Nat) (p : MessageUpdate) :
    Except HTTPError (Nat × DB) :=
  if is_member db cid current_user then
    match find_message db cid mid with
    | none => .error ⟨404, "Message not found"⟩
    | some msg =>
      if msg.sender_id != current_user then
        .error ⟨403, "Not authorized to update message"⟩
      else
        let db' : DB := { db with
          messages := db.messages.map (fun m =>
            if m.id == mid then
              match p.content with
              | some c => { m with content := c }
              | none => m
            else m) }
        .ok (mid, db')
  else .error ⟨404, "Chat not found"⟩

/-- `delete_message` of `messages.py`: membership check (404), message
lookup (404), sender-or-admin check against the caller's membership row
found by `.first()` (403), then `db.delete(db_message)`.
`models.Message.statuses` carries no delete cascade, so the ORM nulls the
`message_id` of the message's status rows; the rows themselves stay. -/
def delete_message (db : DB) (cid mid current_user : Nat) :
    Except HTTPError DB :=
  match db.chat_members.find? (fun m => m.chat_id == some cid && m.user_id == current_user) with
  | none => .error ⟨404, "Chat not found"⟩
  | some member_row =>
    match find_message db cid mid with
    | none => .error ⟨404, "Message not found"⟩
    | some msg =>
      if msg.sender_id == current_user || member_row.is_admin then
        .ok { db with
          messages := db.messages.filter (fun m => !(m.id == mid))
          message_statuses := db.message_statuses.map (fun s =>
            if s.message_id == some mid then { s with message_id := none } else s) }
      else .error ⟨403, "Not authorized to delete message"⟩

/-- The pydantic validator of `schemas.MessageStatusUpdate`. -/
def valid_status (v : String) : Bool :=
  v == "sent" || v == "delivered" || v == "seen"

/-- Replace the first element satisfying `p` (the row object returned by
`.first()` and mutated in place). -/
def updateFirst (p : α → Bool) (f : α → α) : List α → List α
  | [] => []
  | x :: xs => if p x then f x :: xs else x :: updateFirst p f xs

/-- `update_message_status` of `messages.py`, with the pydantic validation
of the request body in front (an unrecognized status never reaches the
handler; FastAPI rejects it with a 422 validation error).  Membership
check (404), message lookup (404), then upsert of the
`(message, requester)` status row: insert if absent, overwrite in place
otherwise. -/
def update_message_status (db : DB) (cid mid current_user : Nat) (v : String) :
    Except HTTPError (Nat × DB) :=
  if !valid_status v then
    .error ⟨422, "Status must be one of: sent, delivered, seen"⟩
  else if is_member db cid current_user then
    match find_message db cid mid with
    | none => .error ⟨404, "Message not found"⟩
    | some _ =>
      match db.message_statuses.find?
          (fun s => s.message_id == some mid && s.user_id == current_user) with
      | none =>
        .ok (mid, { db with
          message_statuses := db.message_statuses ++ [⟨db.next_id, some mid, current_user, v⟩]
          next_id := db.next_id + 1 })
      | some _ =>
        .ok (mid, { db with
          message_statuses := updateFirst
            (fun s => s.message_id == some mid && s.user_id == current_user)
            (fun s => { s with status := v })
            db.message_statuses })
  else .error ⟨404, "Chat not found"⟩

/-- `upload_file` of `files.py`: payloads over `50 * 1024` bytes are
rejected (the handler raises with status code 400), smaller ones are
stored with their metadata. -/
def upload_file (db : DB) (filename content_type : String) (content : List Nat) :
    Except HTTPError (Nat × DB) :=
  if content.length > 50 * 1024 then
    .error ⟨400, "File size exceeds 50KB limit"⟩
  else
    .ok (db.next_id, { db with
      files := db.files ++ [⟨db.next_id, filename, content_type, content.length, content⟩]
      next_id := db.next_id + 1 })

/-- The `Response` built by `download_file`: raw bytes, declared media
type, content-disposition filename. -/
structure DownloadView where
  content : List Nat
  media_type : String
  filename : String
deriving DecidableEq, Repr

/-- `download_file` of `files.py`: file lookup (404), then the raw bytes
with the stored content type and filename. -/
def download_file (db : DB) (fid : Nat) : Except HTTPError DownloadView :=
  match db.files.find? (fun f => f.id == fid) with
  | none => .error ⟨404, "File not found"⟩
  | some f => .ok ⟨f.data, f.content_type, f.filename⟩

/-- `delete_file` of `files.py`: file lookup (404), then
`db.delete(db_file)`.  `models.File.message` carries no delete cascade, so
the ORM nulls the `file_id` of a referencing message.  Mirroring the
source, the authenticated caller is not consulted at all (no ownership
check). -/
def delete_file (db : DB) (fid : Nat) (_current_user : Nat) : Except HTTPError DB :=
  match db.files.find? (fun f => f.id == fid) with
  | none => .error ⟨404, "File not found"⟩
  | some _ =>
    .ok { db with
      files := db.files.filter (fun f => !(f.id == fid))
      messages := db.messages.map (fun m =>
        if m.file_id == some fid then { m with file_id := none } else m) }

/-- Bound for a nullable foreign key: absent, or pointing below `n`. -/
def opt_ltb (o : Option Nat) (n : Nat) : Bool :=
  match o with
  | none => true
  | some x => decide (x < n)

/-- Well-formedness of the store: every primary key and every present
foreign key is below the fresh-id counter.  This is the embedding of
`uuid4` collision-freedom, and it holds in every reachable state. -/
def DB.wf (db : DB) : Prop :=
  (∀ c ∈ db.chats, c.id < db.next_id) ∧
  (∀ m ∈ db.chat_members, m.id < db.next_id ∧ opt_ltb m.chat_id db.next_id = true) ∧
  (∀ m ∈ db.messages, m.id < db.next_id ∧ opt_ltb m.chat_id db.next_id = true) ∧
  (∀ s ∈ db.message_statuses, s.id < db.next_id ∧ opt_ltb s.message_id db.next_id = true) ∧
  (∀ f ∈ db.files, f.id < db.next_id)

/-- Two membership rows that collide on the `(chat, user)` pair while
actually attached to a chat. -/
def same_membership (x y : ChatMember) : Prop :=
  x.chat_id ≠ none ∧ x.chat_id = y.chat_id ∧ x.user_id = y.user_id

/-- The `ChatMember` uniqueness invariant of the spec: at most one
membership row per `(chat, user)` pair. -/
def members_unique (db : DB) : Prop :=
  List.Pairwise (fun x y => ¬ same_membership x y) db.chat_members

/-- The invariant carried across operations: fresh-id well-formedness
together with membership uniqueness. -/
def db_inv (db : DB) : Prop :=
  db.wf ∧ members_unique db

instance (db : DB) : Decidable db.wf := by
  unfold DB.wf
  infer_instance

instance (x y : ChatMember) : Decidable (same_membership x y) := by
  unfold same_membership
  infer_instance

instance (db : DB) : Decidable (members_unique db) := by
  unfold members_unique
  infer_instance

instance (db : DB) : Decidable (db_inv db) := by
  unfold db_inv
  infer_instance

/-- One successful mutating request against the store: each constructor is
one endpoint of `chats.py`, `messages.py` or `files.py` returning
successfully (an `HTTPException` leaves the store unchanged, and the user
and API-key endpoints never touch these tables). -/
inductive Step : DB → DB → Prop
  | chat_created (db : DB) (u : Nat) (p : ChatCreate) (v : ChatView) (db' : DB) :
      create_chat db u p = .ok (v, db') → Step db db'
  | chat_updated (db : DB) (cid u : Nat) (p : ChatUpdate) (v : ChatView) (db' : DB) :
      update_chat db cid u p = .ok (v, db') → Step db db'
  | chat_deleted (db : DB) (cid u : Nat) (db' : DB) :
      delete_chat db cid u = .ok db' → Step db db'
  | member_added (db : DB) (cid uid u : Nat) (v : ChatView) (db' : DB) :
      add_chat_member db cid uid u = .ok (v, db') → Step db db'
  | member_removed (db : DB) (cid uid u : Nat) (v : ChatView) (db' : DB) :
      remove_chat_member db cid uid u = .ok (v, db') → Step db db'
  | message_created (db : DB) (cid u : Nat) (p : MessageCreate) (mid : Nat) (db' : DB) :
      create_message db cid u p = .ok (mid, db') → Step db db'
  | message_updated (db : DB) (cid mid u : Nat) (p : MessageUpdate) (r : Nat) (db' : DB) :
      update_message db cid mid u p = .ok (r, db') → Step db db'
  | message_deleted (db : DB) (cid mid u : Nat) (db' : DB) :
      delete_message db cid mid u = .ok db' → Step db db'
  | status_updated (db : DB) (cid mid u : Nat) (v : String) (r : Nat) (db' : DB) :
      update_message_status db cid mid u v = .ok (r, db') → Step db db'
  | file_uploaded (db : DB) (fn ct : String) (content : List Nat) (fid : Nat) (db' : DB) :
      upload_file db fn ct content = .ok (fid, db') → Step db db'
  | file_deleted (db : DB) (fid u : Nat) (db' : DB) :
      delete_file db fid u = .ok db' → Step db db'

/-- An empty store holding three registered users `1`, `2`, `3`. -/
def exDB1 : DB :=
  { users := [1, 2, 3], chats := [], chat_members := [], messages := [],
    message_statuses := [], files := [], next_id := 10 }

/-- A store with one group chat `10` of members `1` (admin), `2`, `3`. -/
def gDB : DB :=
  { users := [1, 2, 3],
    chats := [⟨10, some "g", true⟩],
    chat_members := [⟨11, some 10, 1, true⟩, ⟨12, some 10, 2, false⟩, ⟨13, some 10, 3, false⟩],
    messages := [], message_statuses := [], files := [], next_id := 20 }

/-- A store with an individual chat `10` of `1` and `2` holding one
message `13` from `1` whose status fan-out rows are `14` and `15`. -/
def exMsgDB : DB :=
  { users := [1, 2],
    chats := [⟨10, none, false⟩],
    chat_members := [⟨11, some 10, 1, true⟩, ⟨12, some 10, 2, false⟩],
    messages := [⟨13, some 10, 1, "hi", none⟩],
    message_statuses := [⟨14, some 13, 1, "seen"⟩, ⟨15, some 13, 2, "sent"⟩],
    files := [], next_id := 16 }

/-- The store `exDB1` after `create_chat 1 ⟨none, false, []⟩`: one
non-group chat `10` with the single member row of user `1`. -/
def exDB1_after : DB :=
  { users := [1, 2, 3],
    chats := [⟨10, none, false⟩],
    chat_members := [⟨11, some 10, 1, true⟩],
    messages := [], message_statuses := [], files := [], next_id := 12 }

/-- A store where user `2` exists but is not a member of chat `10`. -/
def exDB4 : DB :=
  { users := [1, 2],
    chats := [⟨10, some "c", true⟩],
    chat_members := [⟨11, some 10, 1, true⟩],
    messages := [], message_statuses := [], files := [], next_id := 20 }

/-- A store with an individual (non-group) chat `10` of `1` and `2`. -/
def exIndDB : DB :=
  { users := [1, 2],
    chats := [⟨10, none, false⟩],
    chat_members := [⟨11, some 10, 1, true⟩, ⟨12, some 10, 2, false⟩],
    messages := [], message_statuses := [], files := [], next_id := 20 }

/-- A store already holding the deduplication target: an individual chat
`10` whose member set is `{1, 2}`. -/
def exDedupDB : DB :=
  { users := [1, 2, 3],
    chats := [⟨10, none, false⟩],
    chat_members := [⟨11, some 10, 2, false⟩, ⟨12, some 10, 1, true⟩],
    messages := [], message_statuses := [], files := [], next_id := 13 }

/-! ### Generic list helpers -/

theorem number_rows_length (f : Nat → α → β) (k : Nat) (l : List α) :
    (number_rows f k l).length = l.length := by
  induction l generalizing k with
  | nil => rfl
  | cons a rest ih => simp [number_rows, ih]

theorem mem_number_rows {f : Nat → α → β} {k : Nat} {l : List α} {b : β}
    (h : b ∈ number_rows f k l) :
    ∃ j a, a ∈ l ∧ k ≤ j ∧ j < k + l.length ∧ b = f j a := by
  induction l generalizing k with
  | nil => simp [number_rows] at h
  | cons a rest ih =>
    simp only [number_rows, List.mem_cons] at h
    rcases h with h | h
    · exact ⟨k, a, by simp, Nat.le_refl k, by simp only [List.length_cons]; omega, h⟩
    · obtain ⟨j, a', ha', hk, hj, hb⟩ := ih h
      exact ⟨j, a', by simp [ha'], by omega, by simp only [List.length_cons]; omega, hb⟩

theorem number_rows_map (f : Nat → α → β) (g : β → γ) (h : α → γ)
    (hgh : ∀ i a, g (f i a) = h a) (k : Nat) (l : List α) :
    (number_rows f k l).map g = l.map h := by
  induction l generalizing k with
  | nil => rfl
  | cons a rest ih => simp [number_rows, hgh, ih]

theorem number_rows_pairwise {S : α → α → Prop} {T : β → β → Prop}
    {f : Nat → α → β} (hft : ∀ i a j b, S a b → T (f i a) (f j b))
    {l : List α} (hp : l.Pairwise S) (k : Nat) :
    (number_rows f k l).Pairwise T := by
  induction l generalizing k with
  | nil => exact List.Pairwise.nil
  | cons a rest ih =>
    cases hp with
    | cons ha hrest =>
      refine List.Pairwise.cons ?_ (ih hrest (k + 1))
      intro b hb
      obtain ⟨j, a', ha', _, _, rfl⟩ := mem_number_rows hb
      exact hft k a j a' (ha a' ha')

theorem updateFirst_append_of_none {p : α → Bool} (f : α → α) {l₁ : List α} (l₂ : List α)
    (h : l₁.find? p = none) :
    updateFirst p f (l₁ ++ l₂) = l₁ ++ updateFirst p f l₂ := by
  induction l₁ with
  | nil => rfl
  | cons x xs ih =>
    cases hpx : p x with
    | true => rw [List.find?_cons_of_pos _ hpx] at h; exact absurd h (by simp)
    | false =>
      rw [List.find?_cons_of_neg _ (by simp [hpx])] at h
      simp [updateFirst, hpx, ih h]

theorem updateFirst_eq_self {p : α → Bool} {f : α → α} {l : List α} {r : α}
    (h : l.find? p = some r) (hfr : f r = r) :
    updateFirst p f l = l := by
  induction l with
  | nil => simp at h
  | cons x xs ih =>
    cases hpx : p x with
    | true =>
      rw [List.find?_cons_of_pos _ hpx] at h
      injection h with h
      subst h
      simp [updateFirst, hpx, hfr]
    | false =>
      rw [List.find?_cons_of_neg _ (by simp [hpx])] at h
      simp [updateFirst, hpx, ih h]

theorem find?_updateFirst {p : α → Bool} {f : α → α} {l : List α} {r : α}
    (h : l.find? p = some r) (hfr : p (f r) = true) :
    (updateFirst p f l).find? p = some (f r) := by
  induction l with
  | nil => simp at h
  | cons x xs ih =>
    cases hpx : p x with
    | true =>
      rw [List.find?_cons_of_pos _ hpx] at h
      injection h with h
      subst h
      simp [updateFirst, hpx, List.find?_cons_of_pos _ hfr]
    | false =>
      rw [List.find?_cons_of_neg _ (by simp [hpx])] at h
      simp only [updateFirst, hpx, if_false, Bool.false_eq_true]
      rw [List.find?_cons_of_neg _ (by simp [hpx])]
      exact ih h

theorem mem_updateFirst {p : α → Bool} {f : α → α} {l : List α} {x : α}
    (h : x ∈ updateFirst p f l) : x ∈ l ∨ ∃ y ∈ l, x = f y := by
  induction l with
  | nil => simp [updateFirst] at h
  | cons a as ih =>
    cases hpa : p a with
    | true =>
      simp only [updateFirst, hpa, if_true] at h
      rcases List.mem_cons.mp h with heq | h
      · exact Or.inr ⟨a, List.mem_cons_self a as, heq⟩
      · exact Or.inl (List.mem_cons_of_mem a h)
    | false =>
      simp only [updateFirst, hpa, Bool.false_eq_true, if_false] at h
      rcases List.mem_cons.mp h with heq | h
      · exact Or.inl (by rw [heq]; exact List.mem_cons_self a as)
      · rcases ih h with h | ⟨y, hy, hxy⟩
        · exact Or.inl (List.mem_cons_of_mem a h)
        · exact Or.inr ⟨y, List.mem_cons_of_mem a hy, hxy⟩

theorem eraseP_no_match {p : α → Bool} {l : List α}
    (h : l.Pairwise (fun x y => ¬(p x = true ∧ p y = true))) :
    ∀ x ∈ l.eraseP p, p x = false := by
  induction l with
  | nil => simp
  | cons a as ih =>
    cases h with
    | cons ha has =>
      cases hpa : p a with
      | true =>
        rw [List.eraseP_cons_of_pos hpa]
        intro x hx
        cases hpx : p x with
        | true => exact absurd ⟨hpa, hpx⟩ (ha x hx)
        | false => rfl
      | false =>
        rw [List.eraseP_cons_of_neg (by simp [hpa])]
        intro x hx
        rcases List.mem_cons.mp hx with rfl | hx
        · exact hpa
        · exact ih has x hx

theorem filter_len_le_one_of_pairwise {p : α → Bool} {l : List α}
    (h : l.Pairwise (fun x y => ¬(p x = true ∧ p y = true))) :
    (l.filter p).length ≤ 1 := by
  induction l with
  | nil => simp
  | cons a as ih =>
    cases h with
    | cons ha has =>
      cases hpa : p a with
      | true =>
        have : as.filter p = [] := by
          rw [List.filter_eq_nil_iff]
          intro x hx
          cases hpx : p x with
          | true => exact absurd ⟨hpa, hpx⟩ (ha x hx)
          | false => simp [hpx]
        simp [List.filter_cons, hpa, this]
      | false => simpa [List.filter_cons, hpa] using ih has

/-! ### Facts about the resolved member set of `create_chat` -/

theorem resolved_nodup (u : Nat) (ids : List Nat) : (resolved_member_list u ids).Nodup := by
  unfold resolved_member_list
  split
  · exact List.nodup_dedup ids
  next h =>
    rw [← List.concat_eq_append]
    exact List.Nodup.concat h (List.nodup_dedup ids)

theorem self_mem_resolved (u : Nat) (ids : List Nat) : u ∈ resolved_member_list u ids := by
  unfold resolved_member_list
  split
  next h => exact h
  next h => simp

theorem nodup_pair_list {l : List Nat} {a b : Nat} (hab : a ≠ b)
    (hn : l.Nodup) (hf : l.toFinset = {a, b}) :
    ∃ x y, l = [x, y] ∧ x ≠ y ∧ ({x, y} : Finset Nat) = {a, b} := by
  have hlen : l.length = 2 := by
    rw [← List.toFinset_card_of_nodup hn, hf, Finset.card_pair hab]
  obtain ⟨x, y, rfl⟩ : ∃ x y, l = [x, y] := by
    cases l with
    | nil => simp at hlen
    | cons x t =>
      cases t with
      | nil => simp at hlen
      | cons y t' =>
        cases t' with
        | nil => exact ⟨x, y, rfl⟩
        | cons z t'' => simp at hlen
  refine ⟨x, y, rfl, ?_, ?_⟩
  · simpa using (List.pairwise_cons.mp hn).1 y (by simp)
  · simpa using hf

theorem finset_eq_pair_of_card_two {s : Finset Nat} {u o : Nat}
    (hcard : s.card = 2) (hu : u ∈ s) (ho : o ∈ s) (huo : u ≠ o) :
    s = {u, o} := by
  have hsub : ({u, o} : Finset Nat) ⊆ s := by
    intro x hx
    rcases Finset.mem_insert.mp hx with rfl | hx
    · exact hu
    · rw [Finset.mem_singleton] at hx
      subst hx
      exact ho
  exact (Finset.eq_of_subset_of_card_le hsub (by rw [hcard, Finset.card_pair huo])).symm

theorem pair_eq_pair {u o a b : Nat} (hu : u = a ∨ u = b) (ho : o = a ∨ o = b)
    (huo : u ≠ o) : ({u, o} : Finset Nat) = {a, b} := by
  rcases hu with h1 | h1 <;> rcases ho with h2 | h2
  · exact absurd (h1.trans h2.symm) huo
  · rw [h1, h2]
  · rw [h1, h2]
    exact Finset.pair_comm b a
  · exact absurd (h1.trans h2.symm) huo

theorem find?_other_of_pair {x y u : Nat} (hxy : x ≠ y) (hu : u = x ∨ u = y) :
    ∃ o, ([x, y].find? (fun i => i != u)) = some o ∧ o ≠ u ∧ (o = x ∨ o = y) := by
  rcases hu with h | h
  · refine ⟨y, ?_, by rw [h]; exact Ne.symm hxy, Or.inr rfl⟩
    rw [List.find?_cons_of_neg _ (by simp [h]),
      List.find?_cons_of_pos _ (by simp only [h, bne_iff_ne, ne_eq]; exact Ne.symm hxy)]
  · refine ⟨x, ?_, by rw [h]; exact hxy, Or.inl rfl⟩
    rw [List.find?_cons_of_pos _ (by simp only [h, bne_iff_ne, ne_eq]; exact hxy)]

/-! ### State of a freshly created chat -/

theorem create_chat_new_state (db : DB) (u : Nat) (p : ChatCreate) (l : List Nat) :
    (create_chat_new db u p l).2 = { db with
      chats := db.chats ++ [⟨db.next_id, p.name, p.is_group⟩],
      chat_members := db.chat_members ++ chat_member_rows db.next_id u l,
      next_id := db.next_id + 1 + l.length } := rfl

theorem create_chat_new_view (db : DB) (u : Nat) (p : ChatCreate) (l : List Nat) :
    (create_chat_new db u p l).1 = get_chat_response (create_chat_new db u p l).2 db.next_id := rfl

theorem chat_member_rows_user_ids (cid u : Nat) (l : List Nat) :
    (chat_member_rows cid u l).map (fun m => m.user_id) = l := by
  unfold chat_member_rows
  rw [number_rows_map (fun k uid => (⟨k, some cid, uid, uid == u⟩ : ChatMember))
    (fun m => m.user_id) id (fun i a => rfl)]
  exact List.map_id l

theorem chat_member_rows_chat_id {cid u : Nat} {l : List Nat} {m : ChatMember}
    (h : m ∈ chat_member_rows cid u l) : m.chat_id = some cid := by
  obtain ⟨j, a, _, _, _, rfl⟩ := mem_number_rows h
  rfl

theorem chat_member_rows_id_bounds {cid u : Nat} {l : List Nat} {m : ChatMember}
    (h : m ∈ chat_member_rows cid u l) : cid + 1 ≤ m.id ∧ m.id < cid + 1 + l.length := by
  obtain ⟨j, a, _, h1, h2, rfl⟩ := mem_number_rows h
  exact ⟨h1, h2⟩

theorem members_of_create_new (db : DB) (u : Nat) (p : ChatCreate) (l : List Nat)
    (hold : ∀ m ∈ db.chat_members, opt_ltb m.chat_id db.next_id = true) :
    members_of (create_chat_new db u p l).2 db.next_id = chat_member_rows db.next_id u l := by
  rw [create_chat_new_state]
  show (db.chat_members ++ chat_member_rows db.next_id u l).filter
      (fun m => m.chat_id == some db.next_id) = chat_member_rows db.next_id u l
  rw [List.filter_append]
  have h1 : db.chat_members.filter (fun m => m.chat_id == some db.next_id) = [] := by
    rw [List.filter_eq_nil_iff]
    intro m hm
    have hb := hold m hm
    cases hcm : m.chat_id with
    | none => simp [hcm]
    | some c =>
      rw [hcm] at hb
      simp only [opt_ltb, decide_eq_true_eq] at hb
      simp only [hcm, beq_iff_eq, Option.some.injEq]
      omega
  have h2 : (chat_member_rows db.next_id u l).filter (fun m => m.chat_id == some db.next_id)
      = chat_member_rows db.next_id u l := by
    rw [List.filter_eq_self]
    intro m hm
    simp [chat_member_rows_chat_id hm]
  rw [h1, h2, List.nil_append]

theorem members_of_create_new_ne (db : DB) (u : Nat) (p : ChatCreate) (l : List Nat)
    (cid : Nat) (hne : cid ≠ db.next_id) :
    members_of (create_chat_new db u p l).2 cid = members_of db cid := by
  rw [create_chat_new_state]
  show (db.chat_members ++ chat_member_rows db.next_id u l).filter
      (fun m => m.chat_id == some cid) = members_of db cid
  rw [List.filter_append]
  have h2 : (chat_member_rows db.next_id u l).filter (fun m => m.chat_id == some cid) = [] := by
    rw [List.filter_eq_nil_iff]
    intro m hm
    simp only [chat_member_rows_chat_id hm, beq_iff_eq, Option.some.injEq]
    exact fun hx => hne hx.symm
  rw [h2, List.append_nil]
  rfl

theorem member_finset_create_new (db : DB) (u : Nat) (p : ChatCreate) (l : List Nat)
    (hold : ∀ m ∈ db.chat_members, opt_ltb m.chat_id db.next_id = true) :
    member_finset (create_chat_new db u p l).2 db.next_id = l.toFinset := by
  unfold member_finset
  rw [members_of_create_new db u p l hold, chat_member_rows_user_ids]

theorem member_finset_create_new_ne (db : DB) (u : Nat) (p : ChatCreate) (l : List Nat)
    (cid : Nat) (hne : cid ≠ db.next_id) :
    member_finset (create_chat_new db u p l).2 cid = member_finset db cid := by
  unfold member_finset
  rw [members_of_create_new_ne db u p l cid hne]

/-! ### Membership predicate bridges -/

theorem is_member_iff_mem_finset (db : DB) (cid u : Nat) :
    is_member db cid u = true ↔ u ∈ member_finset db cid := by
  unfold is_member member_finset members_of
  simp only [List.any_eq_true, Bool.and_eq_true, beq_iff_eq, List.mem_toFinset,
    List.mem_map, List.mem_filter]
  constructor
  · rintro ⟨m, hm, h1, h2⟩
    exact ⟨m, ⟨hm, by simp [h1]⟩, h2⟩
  · rintro ⟨m, ⟨hm, h1⟩, h2⟩
    exact ⟨m, hm, by simpa using h1, h2⟩

theorem is_chat_admin_member {db : DB} {cid u : Nat} (h : is_chat_admin db cid u = true) :
    is_member db cid u = true := by
  unfold is_chat_admin at h
  unfold is_member
  rw [List.any_eq_true] at h ⊢
  obtain ⟨m, hm, hb⟩ := h
  simp only [Bool.and_eq_true] at hb
  exact ⟨m, hm, by simp [hb.1.1, hb.1.2]⟩

theorem not_admin_of_not_member {db : DB} {cid u : Nat} (h : is_member db cid u = false) :
    is_chat_admin db cid u = false := by
  cases ha : is_chat_admin db cid u with
  | false => rfl
  | true =>
    rw [is_chat_admin_member ha] at h
    exact Bool.noConfusion h

theorem member_find?_eq_none {db : DB} {cid u : Nat} (h : is_member db cid u = false) :
    db.chat_members.find? (fun m => m.chat_id == some cid && m.user_id == u) = none := by
  rw [List.find?_eq_none]
  intro m hm hb
  have hany : db.chat_members.any (fun m => m.chat_id == some cid && m.user_id == u) = true :=
    List.any_eq_true.mpr ⟨m, hm, hb⟩
  unfold is_member at h
  rw [hany] at h
  exact Bool.noConfusion h

theorem member_find?_isSome {db : DB} {cid u : Nat} (h : is_member db cid u = true) :
    ∃ m, db.chat_members.find? (fun m => m.chat_id == some cid && m.user_id == u) = some m := by
  unfold is_member at h
  rw [List.any_eq_true] at h
  obtain ⟨m', hm', hb⟩ := h
  exact Option.isSome_iff_exists.mp
    (List.find?_isSome.mpr ⟨m', hm', hb⟩)

theorem dedup_find?_none (db : DB) (u o a b : Nat)
    (hu : u = a ∨ u = b) (ho : o = a ∨ o = b) (huo : u ≠ o)
    (hnone : ∀ c ∈ db.chats, c.is_group = false → member_finset db c.id ≠ {a, b}) :
    (db.chats.filter (individual_candidate db u)).find? (member_set_matches db o) = none := by
  rw [List.find?_eq_none]
  intro c hc hmatch
  rw [List.mem_filter] at hc
  obtain ⟨hcm, hcand⟩ := hc
  unfold individual_candidate at hcand
  rw [Bool.and_eq_true] at hcand
  obtain ⟨hg, hany⟩ := hcand
  have hu_mem : u ∈ member_finset db c.id := by
    rw [List.any_eq_true] at hany
    obtain ⟨m, hm, hb⟩ := hany
    rw [Bool.and_eq_true] at hb
    unfold member_finset members_of
    rw [List.mem_toFinset, List.mem_map]
    exact ⟨m, List.mem_filter.mpr ⟨hm, hb.1⟩, by simpa using hb.2⟩
  unfold member_set_matches at hmatch
  rw [Bool.and_eq_true] at hmatch
  obtain ⟨hcard, homem⟩ := hmatch
  have hcard' : (member_finset db c.id).card = 2 := by simpa using hcard
  have ho_mem : o ∈ member_finset db c.id := of_decide_eq_true homem
  have hset : member_finset db c.id = {u, o} :=
    finset_eq_pair_of_card_two hcard' hu_mem ho_mem huo
  rw [pair_eq_pair hu ho huo] at hset
  exact hnone c hcm (by simpa using hg) hset

theorem get_chat_response_id (db : DB) (cid : Nat) : (get_chat_response db cid).id = cid := by
  unfold get_chat_response
  cases hf : db.chats.find? (fun c => c.id == cid) with
  | none => simp [hf]
  | some c =>
    have hc := List.find?_some hf
    simp only [beq_iff_eq] at hc
    simp [hf, hc]

theorem dedup_find?_none_after (db : DB) (u₁ u o a b : Nat) (p₁ : ChatCreate) (l : List Nat)
    (hwf : db.wf)
    (hu : u = a ∨ u = b) (ho : o = a ∨ o = b) (huo : u ≠ o)
    (hnone : ∀ c ∈ db.chats, c.is_group = false → member_finset db c.id ≠ {a, b}) :
    (db.chats.filter (individual_candidate (create_chat_new db u₁ p₁ l).2 u)).find?
      (member_set_matches (create_chat_new db u₁ p₁ l).2 o) = none := by
  rw [List.find?_eq_none]
  intro c hc hmatch
  rw [List.mem_filter] at hc
  obtain ⟨hcm, hcand⟩ := hc
  have hcid : c.id < db.next_id := hwf.1 c hcm
  have hfs : member_finset (create_chat_new db u₁ p₁ l).2 c.id = member_finset db c.id :=
    member_finset_create_new_ne db u₁ p₁ l c.id (by omega)
  unfold individual_candidate at hcand
  rw [Bool.and_eq_true] at hcand
  obtain ⟨hg, hany⟩ := hcand
  have hu_mem : u ∈ member_finset db c.id := by
    rw [List.any_eq_true] at hany
    obtain ⟨m, hm, hbb⟩ := hany
    rw [Bool.and_eq_true] at hbb
    have hm2 : m ∈ db.chat_members ++ chat_member_rows db.next_id u₁ l := hm
    have hm' : m ∈ db.chat_members := by
      rcases List.mem_append.mp hm2 with h | h
      · exact h
      · exfalso
        have hcidm := chat_member_rows_chat_id h
        have := hbb.1
        rw [hcidm] at this
        simp only [beq_iff_eq, Option.some.injEq] at this
        omega
    unfold member_finset members_of
    rw [List.mem_toFinset, List.mem_map]
    exact ⟨m, List.mem_filter.mpr ⟨hm', hbb.1⟩, by simpa using hbb.2⟩
  unfold member_set_matches at hmatch
  rw [Bool.and_eq_true] at hmatch
  obtain ⟨hcard, homem⟩ := hmatch
  have hcard' : (member_finset db c.id).card = 2 := by
    rw [← hfs]
    simpa using hcard
  have ho_mem : o ∈ member_finset db c.id := by
    rw [← hfs]
    exact of_decide_eq_true homem
  have hset : member_finset db c.id = {u, o} :=
    finset_eq_pair_of_card_two hcard' hu_mem ho_mem huo
  rw [pair_eq_pair hu ho huo] at hset
  exact hnone c hcm (by simpa using hg) hset

theorem dedup_find?_some_after (db : DB) (u₁ u o a b : Nat) (p₁ : ChatCreate) (l : List Nat)
    (hwf : db.wf) (hab : a ≠ b) (hg₁ : p₁.is_group = false)
    (hlf : l.toFinset = {a, b})
    (hu : u = a ∨ u = b) (ho : o = a ∨ o = b) (huo : u ≠ o)
    (hnone : ∀ c ∈ db.chats, c.is_group = false → member_finset db c.id ≠ {a, b}) :
    ((create_chat_new db u₁ p₁ l).2.chats.filter
        (individual_candidate (create_chat_new db u₁ p₁ l).2 u)).find?
      (member_set_matches (create_chat_new db u₁ p₁ l).2 o)
      = some ⟨db.next_id, p₁.name, p₁.is_group⟩ := by
  have hchats : (create_chat_new db u₁ p₁ l).2.chats
      = db.chats ++ [⟨db.next_id, p₁.name, p₁.is_group⟩] := rfl
  rw [hchats, List.filter_append, List.find?_append,
    dedup_find?_none_after db u₁ u o a b p₁ l hwf hu ho huo hnone]
  have hfs : member_finset (create_chat_new db u₁ p₁ l).2 db.next_id = l.toFinset :=
    member_finset_create_new db u₁ p₁ l (fun m hm => (hwf.2.1 m hm).2)
  have hcand : individual_candidate (create_chat_new db u₁ p₁ l).2 u
      ⟨db.next_id, p₁.name, p₁.is_group⟩ = true := by
    unfold individual_candidate
    rw [Bool.and_eq_true]
    refine ⟨by simp [hg₁], ?_⟩
    rw [List.any_eq_true]
    have hu_l : u ∈ l := by
      have hmem : u ∈ l.toFinset := by
        rw [hlf]
        rcases hu with h | h <;> simp [h]
      simpa using hmem
    have hmap : u ∈ (chat_member_rows db.next_id u₁ l).map (fun m => m.user_id) := by
      rw [chat_member_rows_user_ids]
      exact hu_l
    rw [List.mem_map] at hmap
    obtain ⟨m, hm, hmu⟩ := hmap
    refine ⟨m, List.mem_append.mpr (Or.inr hm), ?_⟩
    rw [Bool.and_eq_true]
    exact ⟨by simp [chat_member_rows_chat_id hm], by simp [hmu]⟩
  have hmatch : member_set_matches (create_chat_new db u₁ p₁ l).2 o
      ⟨db.next_id, p₁.name, p₁.is_group⟩ = true := by
    unfold member_set_matches
    rw [Bool.and_eq_true]
    constructor
    · show ((member_finset (create_chat_new db u₁ p₁ l).2 db.next_id).card == 2) = true
      rw [hfs, hlf, Finset.card_pair hab]
      rfl
    · show decide (o ∈ member_finset (create_chat_new db u₁ p₁ l).2 db.next_id) = true
      rw [decide_eq_true_eq, hfs, hlf]
      rcases ho with h | h <;> simp [h]
  simp [List.filter_cons, hcand, List.find?_cons_of_pos _ hmatch]

/-! ### Claim C1 -/

/-- Claim C1: for every pair of valid two-party, non-group `create_chat`
calls whose resolved member set is the same two distinct existing users
`{a, b}` (in either argument order, initiated by either of the two users),
when the first call creates a chat (no matching individual chat exists
yet), the second call returns exactly the chat created by the first —
same response, same state, no new chat. -/
theorem create_chat_individual_idempotent
    (db : DB) (a b u₁ u₂ : Nat) (p₁ p₂ : ChatCreate)
    (hwf : db.wf) (hab : a ≠ b)
    (ha : user_exists db a = true) (hb : user_exists db b = true)
    (hu₁ : u₁ = a ∨ u₁ = b) (hu₂ : u₂ = a ∨ u₂ = b)
    (hg₁ : p₁.is_group = false) (hg₂ : p₂.is_group = false)
    (hm₁ : (resolved_member_list u₁ p₁.member_ids).toFinset = {a, b})
    (hm₂ : (resolved_member_list u₂ p₂.member_ids).toFinset = {a, b})
    (hnone : ∀ c ∈ db.chats, c.is_group = false → member_finset db c.id ≠ {a, b}) :
    ∃ v₁ db₁, create_chat db u₁ p₁ = .ok (v₁, db₁) ∧
      db₁.chats = db.chats ++ [⟨db.next_id, p₁.name, false⟩] ∧
      v₁.id = db.next_id ∧
      create_chat db₁ u₂ p₂ = .ok (v₁, db₁) := by
  obtain ⟨x, y, hl₁, hxy, hpair₁⟩ := nodup_pair_list hab (resolved_nodup u₁ p₁.member_ids) hm₁
  have hxy_ab : ∀ m, m = x ∨ m = y → m = a ∨ m = b := by
    intro m hm
    have hmem : m ∈ ({a, b} : Finset Nat) := by
      rw [← hpair₁]
      rcases hm with h | h <;> simp [h]
    simpa using hmem
  have hu₁xy : u₁ = x ∨ u₁ = y := by
    have h := self_mem_resolved u₁ p₁.member_ids
    rw [hl₁] at h
    simpa using h
  obtain ⟨o₁, ho₁find, ho₁ne, ho₁xy⟩ := find?_other_of_pair hxy hu₁xy
  have ho₁ab : o₁ = a ∨ o₁ = b := hxy_ab o₁ ho₁xy
  have hmiss₁ : ([x, y].find? (fun m => !user_exists db m)) = none := by
    rw [List.find?_eq_none]
    intro m hm
    rcases hxy_ab m (by simpa using hm) with h | h <;> simp [h, ha, hb]
  have hdedup₁ := dedup_find?_none db u₁ o₁ a b hu₁ ho₁ab (Ne.symm ho₁ne) hnone
  have hcall₁ : create_chat db u₁ p₁ = .ok (create_chat_new db u₁ p₁ [x, y]) := by
    unfold create_chat
    rw [hl₁, hmiss₁, ho₁find]
    simp only [hg₁]
    have hcond₁ : (false == false && ([x, y] : List Nat).length == 2) = true := rfl
    rw [if_pos hcond₁, hdedup₁]
  refine ⟨(create_chat_new db u₁ p₁ [x, y]).1, (create_chat_new db u₁ p₁ [x, y]).2,
    hcall₁, ?_, ?_, ?_⟩
  · show db.chats ++ [⟨db.next_id, p₁.name, p₁.is_group⟩]
      = db.chats ++ [⟨db.next_id, p₁.name, false⟩]
    rw [hg₁]
  · show (get_chat_response (create_chat_new db u₁ p₁ [x, y]).2 db.next_id).id = db.next_id
    exact get_chat_response_id _ _
  · obtain ⟨x₂, y₂, hl₂, hxy₂, hpair₂⟩ :=
      nodup_pair_list hab (resolved_nodup u₂ p₂.member_ids) hm₂
    have hxy_ab₂ : ∀ m, m = x₂ ∨ m = y₂ → m = a ∨ m = b := by
      intro m hm
      have hmem : m ∈ ({a, b} : Finset Nat) := by
        rw [← hpair₂]
        rcases hm with h | h <;> simp [h]
      simpa using hmem
    have hu₂xy : u₂ = x₂ ∨ u₂ = y₂ := by
      have h := self_mem_resolved u₂ p₂.member_ids
      rw [hl₂] at h
      simpa using h
    obtain ⟨o₂, ho₂find, ho₂ne, ho₂xy⟩ := find?_other_of_pair hxy₂ hu₂xy
    have ho₂ab : o₂ = a ∨ o₂ = b := hxy_ab₂ o₂ ho₂xy
    have hmiss₂ : ([x₂, y₂].find?
        (fun m => !user_exists (create_chat_new db u₁ p₁ [x, y]).2 m)) = none := by
      rw [List.find?_eq_none]
      intro m hm
      rcases hxy_ab₂ m (by simpa using hm) with h | h <;> simp [h, show user_exists (create_chat_new db u₁ p₁ [x, y]).2 a = true from ha, show user_exists (create_chat_new db u₁ p₁ [x, y]).2 b = true from hb]
    have hlf₁ : ([x, y] : List Nat).toFinset = {a, b} := by simpa using hpair₁
    have hdedup₂ := dedup_find?_some_after db u₁ u₂ o₂ a b p₁ [x, y] hwf hab hg₁ hlf₁
      hu₂ ho₂ab (Ne.symm ho₂ne) hnone
    unfold create_chat
    rw [hl₂, hmiss₂, ho₂find]
    simp only [hg₂]
    have hcond₂ : (false == false && ([x₂, y₂] : List Nat).length == 2) = true := rfl
    rw [if_pos hcond₂, hdedup₂]
    rfl

/-- Witness for C1 at a concrete store: user `1` opens an individual chat
with user `2`, then user `2` repeats the call with the arguments reversed
and a different name. -/
theorem create_chat_individual_idempotent_witness :
    ∃ v₁ db₁, create_chat exDB1 1 ⟨none, false, [2]⟩ = .ok (v₁, db₁) ∧
      db₁.chats = exDB1.chats ++ [⟨exDB1.next_id, none, false⟩] ∧
      v₁.id = exDB1.next_id ∧
      create_chat db₁ 2 ⟨some "again", false, [1]⟩ = .ok (v₁, db₁) :=
  create_chat_individual_idempotent exDB1 1 2 1 2 ⟨none, false, [2]⟩ ⟨some "again", false, [1]⟩
    (by decide) (by decide) (by decide) (by decide) (Or.inl rfl) (Or.inr rfl)
    rfl rfl (by decide) (by decide) (by decide)

/-! ### Claim C10 -/

/-- Claim C10: when `create_chat` finds an existing individual chat for
the resolved two-user pair (the deduplication path), it returns that
chat's view and writes nothing at all: the store is returned unchanged —
no `Chat` or `ChatMember` row is inserted and the existing chat's name,
admin flags and membership are untouched, whatever name the call
supplied. -/
theorem create_chat_dedup_no_write
    (db : DB) (u other : Nat) (existing : Chat) (p : ChatCreate)
    (hmiss : (resolved_member_list u p.member_ids).find? (fun m => !user_exists db m) = none)
    (hcond : (p.is_group == false && (resolved_member_list u p.member_ids).length == 2) = true)
    (hother : (resolved_member_list u p.member_ids).find? (fun i => i != u) = some other)
    (hfound : (db.chats.filter (individual_candidate db u)).find?
        (member_set_matches db other) = some existing) :
    create_chat db u p = .ok (get_chat_response db existing.id, db) := by
  unfold create_chat
  rw [hmiss, if_pos hcond, hother]
  simp only [hfound]

/-- Witness for C10: user `2` re-requests the already-existing individual
chat `{1, 2}` under a different name; the call returns chat `10` and the
store `exDedupDB` unchanged. -/
theorem create_chat_dedup_no_write_witness :
    create_chat exDedupDB 2 ⟨some "renamed", false, [1]⟩
      = .ok (get_chat_response exDedupDB 10, exDedupDB) :=
  create_chat_dedup_no_write exDedupDB 2 1 ⟨10, none, false⟩ ⟨some "renamed", false, [1]⟩
    (by decide) (by decide) (by decide) (by decide)

/-! ### Claim C2 -/

theorem message_status_rows_length (mid sender : Nat) (members : List ChatMember) :
    (message_status_rows mid sender members).length = members.length := by
  unfold message_status_rows
  exact number_rows_length _ _ _

theorem message_status_rows_spec {mid sender : Nat} {members : List ChatMember}
    {s : MessageStatus} (h : s ∈ message_status_rows mid sender members) :
    s.message_id = some mid ∧ s.status = (if s.user_id = sender then "seen" else "sent") := by
  obtain ⟨j, m, hm, _, _, rfl⟩ := mem_number_rows h
  refine ⟨rfl, ?_⟩
  show (if m.user_id == sender then "seen" else "sent")
    = (if m.user_id = sender then "seen" else "sent")
  by_cases hus : m.user_id = sender
  · simp [hus]
  · simp [hus]

theorem status_filter_fresh (db : DB) (u : Nat) (rowsrc : List ChatMember)
    (hold : ∀ s ∈ db.message_statuses, opt_ltb s.message_id db.next_id = true) :
    (db.message_statuses ++ message_status_rows db.next_id u rowsrc).filter
      (fun s => s.message_id == some db.next_id) = message_status_rows db.next_id u rowsrc := by
  rw [List.filter_append]
  have h1 : db.message_statuses.filter (fun s => s.message_id == some db.next_id) = [] := by
    rw [List.filter_eq_nil_iff]
    intro s hs
    have hb := hold s hs
    cases hsm : s.message_id with
    | none => simp [hsm]
    | some m =>
      rw [hsm] at hb
      simp only [opt_ltb, decide_eq_true_eq] at hb
      simp only [hsm, beq_iff_eq, Option.some.injEq]
      omega
  have h2 : (message_status_rows db.next_id u rowsrc).filter
      (fun s => s.message_id == some db.next_id) = message_status_rows db.next_id u rowsrc := by
    rw [List.filter_eq_self]
    intro s hs
    simp [(message_status_rows_spec hs).1]
  rw [h1, h2, List.nil_append]

/-- Claim C2: a successful `create_message` in a chat with N current
`ChatMember` rows fans out exactly N `MessageStatus` rows for the new
message: the sender's row is `seen`, every other member's row is `sent`. -/
theorem create_message_status_fanout
    (db : DB) (cid u : Nat) (p : MessageCreate)
    (hwf : db.wf) (hm : is_member db cid u = true)
    (hf : ∀ fid, p.file_id = some fid → db.files.any (fun f => f.id == fid) = true) :
    ∃ db', create_message db cid u p = .ok (db.next_id, db') ∧
      (db'.message_statuses.filter (fun s => s.message_id == some db.next_id)).length
        = (members_of db cid).length ∧
      ∀ s ∈ db'.message_statuses.filter (fun s => s.message_id == some db.next_id),
        s.status = (if s.user_id = u then "seen" else "sent") := by
  have hfile : (match p.file_id with
      | some fid => db.files.any (fun f => f.id == fid)
      | none => true) = true := by
    cases hpf : p.file_id with
    | none => rfl
    | some fid => exact hf fid hpf
  have hfilter : (db.message_statuses ++ message_status_rows db.next_id u (members_of db cid)).filter
      (fun s => s.message_id == some db.next_id)
      = message_status_rows db.next_id u (members_of db cid) :=
    status_filter_fresh db u (members_of db cid) (fun s hs => (hwf.2.2.2.1 s hs).2)
  refine ⟨{ db with
      messages := db.messages ++ [⟨db.next_id, some cid, u, p.content, p.file_id⟩],
      message_statuses := db.message_statuses ++
        message_status_rows db.next_id u (members_of db cid),
      next_id := db.next_id + 1 + (members_of db cid).length }, ?_, ?_, ?_⟩
  · unfold create_message
    rw [hm]
    rw [if_pos rfl]
    simp only [hfile, if_true]
  · show ((db.message_statuses ++ message_status_rows db.next_id u (members_of db cid)).filter
      (fun s => s.message_id == some db.next_id)).length = (members_of db cid).length
    rw [hfilter, message_status_rows_length]
  · intro s hs
    have hs' : s ∈ (db.message_statuses ++
        message_status_rows db.next_id u (members_of db cid)).filter
        (fun s => s.message_id == some db.next_id) := hs
    rw [hfilter] at hs'
    exact (message_status_rows_spec hs').2

/-- Witness for C2: user `1` posts a message in the three-member group
chat of `gDB`; the fan-out has three rows, `seen` for `1`, `sent` for the
others. -/
theorem create_message_status_fanout_witness :
    ∃ db', create_message gDB 10 1 ⟨"hi", none⟩ = .ok (gDB.next_id, db') ∧
      (db'.message_statuses.filter (fun s => s.message_id == some gDB.next_id)).length
        = (members_of gDB 10).length ∧
      ∀ s ∈ db'.message_statuses.filter (fun s => s.message_id == some gDB.next_id),
        s.status = (if s.user_id = 1 then "seen" else "sent") :=
  create_message_status_fanout gDB 10 1 ⟨"hi", none⟩ (by decide) (by decide)
    (fun _ h => Option.noConfusion h)

/-! ### Claim C5 -/

/-- Counterexample to C5 as stated: `create_chat` with `is_group = false`
and an empty `member_ids` list (the resolved member set is the requester
alone) succeeds and creates a non-group chat with exactly one `ChatMember`
row — individual chats with one member can be created. -/
theorem create_chat_single_member_counterexample :
    create_chat exDB1 1 ⟨none, false, []⟩ = .ok
      (⟨10, none, false, [⟨1, true⟩]⟩, exDB1_after) ∧
    (members_of exDB1_after 10).length = 1 :=
  ⟨rfl, rfl⟩

theorem chat_member_rows_length (cid u : Nat) (l : List Nat) :
    (chat_member_rows cid u l).length = l.length := by
  unfold chat_member_rows
  exact number_rows_length _ _ _

/-- Claim C5 as amended: `create_chat` with `is_group = false` inserts
exactly one `ChatMember` row per resolved member (all with distinct
users), but performs no member-count validation: whenever the resolved
member set does not have exactly two users — size one or three-plus — the
dedup branch is skipped and the non-group chat is nevertheless created
with that many member rows. -/
theorem create_chat_member_count_unchecked
    (db : DB) (u : Nat) (p : ChatCreate)
    (hwf : db.wf)
    (hex : (resolved_member_list u p.member_ids).find? (fun m => !user_exists db m) = none)
    (hg : p.is_group = false)
    (hsz : ((resolved_member_list u p.member_ids).length == 2) = false) :
    ∃ v db', create_chat db u p = .ok (v, db') ∧
      db'.chats = db.chats ++ [⟨db.next_id, p.name, false⟩] ∧
      (members_of db' db.next_id).length = (resolved_member_list u p.member_ids).length ∧
      ((members_of db' db.next_id).map (fun m => m.user_id)).Nodup := by
  have hcall : create_chat db u p
      = .ok (create_chat_new db u p (resolved_member_list u p.member_ids)) := by
    unfold create_chat
    rw [hex]
    have hcond : (p.is_group == false
        && (resolved_member_list u p.member_ids).length == 2) = false := by
      rw [hsz, Bool.and_false]
    rw [if_neg (by rw [hcond]; simp)]
  have hmembers : members_of (create_chat_new db u p (resolved_member_list u p.member_ids)).2
      db.next_id = chat_member_rows db.next_id u (resolved_member_list u p.member_ids) :=
    members_of_create_new db u p _ (fun m hm => (hwf.2.1 m hm).2)
  refine ⟨(create_chat_new db u p (resolved_member_list u p.member_ids)).1,
    (create_chat_new db u p (resolved_member_list u p.member_ids)).2, hcall, ?_, ?_, ?_⟩
  · show db.chats ++ [⟨db.next_id, p.name, p.is_group⟩]
      = db.chats ++ [⟨db.next_id, p.name, false⟩]
    rw [hg]
  · rw [hmembers, chat_member_rows_length]
  · rw [hmembers, chat_member_rows_user_ids]
    exact resolved_nodup u p.member_ids

/-- Witness for the amended C5 at the counterexample input: one resolved
member, one member row, still a non-group chat. -/
theorem create_chat_member_count_unchecked_witness :
    ∃ v db', create_chat exDB1 1 ⟨none, false, []⟩ = .ok (v, db') ∧
      db'.chats = exDB1.chats ++ [⟨exDB1.next_id, none, false⟩] ∧
      (members_of db' exDB1.next_id).length = (resolved_member_list 1 ([] : List Nat)).length ∧
      ((members_of db' exDB1.next_id).map (fun m => m.user_id)).Nodup :=
  create_chat_member_count_unchecked exDB1 1 ⟨none, false, []⟩
    (by decide) (by decide) rfl (by decide)

/-! ### Claim C6 -/

/-- Claim C6: for a chat member and a message of that chat, a status
update with any value in `{sent, delivered, seen}` always succeeds —
creating the `(message, requester)` status row if absent, overwriting it
in place otherwise — and is idempotent: immediately repeating the same
value returns the same state; after the call the requester's row for the
message holds the new value.  A value outside the set is rejected by the
request-body validation (`InvalidArgument`) before the handler can touch
the store. -/
theorem update_message_status_upsert_idempotent
    (db : DB) (cid mid u : Nat) (v : String)
    (hv : valid_status v = true)
    (hm : is_member db cid u = true)
    (hmsg : ∃ msg, find_message db cid mid = some msg) :
    ∃ db₁, update_message_status db cid mid u v = .ok (mid, db₁) ∧
      update_message_status db₁ cid mid u v = .ok (mid, db₁) ∧
      (∃ r, db₁.message_statuses.find?
          (fun s => s.message_id == some mid && s.user_id == u) = some r ∧ r.status = v) ∧
      ∀ w, valid_status w = false →
        update_message_status db cid mid u w =
          .error ⟨422, "Status must be one of: sent, delivered, seen"⟩ := by
  obtain ⟨msg, hmsg⟩ := hmsg
  have herr : ∀ w, valid_status w = false →
      update_message_status db cid mid u w =
        .error ⟨422, "Status must be one of: sent, delivered, seen"⟩ := by
    intro w hw
    unfold update_message_status
    rw [hw]
    rfl
  cases hfind : db.message_statuses.find?
      (fun s => s.message_id == some mid && s.user_id == u) with
  | none =>
    have hfind₁ : (db.message_statuses
        ++ [(⟨db.next_id, some mid, u, v⟩ : MessageStatus)]).find?
        (fun s => s.message_id == some mid && s.user_id == u)
        = some ⟨db.next_id, some mid, u, v⟩ := by
      rw [List.find?_append, hfind, List.find?_cons_of_pos _ (by simp)]
      rfl
    refine ⟨{ db with
        message_statuses := db.message_statuses ++ [⟨db.next_id, some mid, u, v⟩],
        next_id := db.next_id + 1 }, ?_, ?_,
      ⟨⟨db.next_id, some mid, u, v⟩, hfind₁, rfl⟩, herr⟩
    · unfold update_message_status
      rw [hv]
      rw [if_neg (by simp), hm, if_pos rfl, hmsg]
      simp only [hfind]
    · have hm₁ : is_member { db with
          message_statuses := db.message_statuses ++ [⟨db.next_id, some mid, u, v⟩],
          next_id := db.next_id + 1 } cid u = true := hm
      have hmsg₁ : find_message { db with
          message_statuses := db.message_statuses ++ [⟨db.next_id, some mid, u, v⟩],
          next_id := db.next_id + 1 } cid mid = some msg := hmsg
      unfold update_message_status
      rw [hv]
      rw [if_neg (by simp), hm₁, if_pos rfl, hmsg₁]
      simp only [hfind₁]
      have hupd : updateFirst (fun s => s.message_id == some mid && s.user_id == u)
          (fun s => { s with status := v })
          (db.message_statuses ++ [(⟨db.next_id, some mid, u, v⟩ : MessageStatus)])
          = db.message_statuses ++ [(⟨db.next_id, some mid, u, v⟩ : MessageStatus)] :=
        updateFirst_eq_self hfind₁ rfl
      rw [hupd]
  | some r =>
    have hpr : (r.message_id == some mid && r.user_id == u) = true :=
      @List.find?_some _ (fun s => s.message_id == some mid && s.user_id == u)
        r db.message_statuses hfind
    have hfind₂ : (updateFirst (fun s => s.message_id == some mid && s.user_id == u)
        (fun s => { s with status := v }) db.message_statuses).find?
        (fun s => s.message_id == some mid && s.user_id == u)
        = some { r with status := v } :=
      find?_updateFirst hfind hpr
    refine ⟨{ db with
        message_statuses := updateFirst (fun s => s.message_id == some mid && s.user_id == u)
          (fun s => { s with status := v }) db.message_statuses }, ?_, ?_, ?_, herr⟩
    · unfold update_message_status
      rw [hv]
      rw [if_neg (by simp), hm, if_pos rfl, hmsg]
      simp only [hfind]
    · have hm₁ : is_member { db with
          message_statuses := updateFirst (fun s => s.message_id == some mid && s.user_id == u)
            (fun s => { s with status := v }) db.message_statuses } cid u = true := hm
      have hmsg₁ : find_message { db with
          message_statuses := updateFirst (fun s => s.message_id == some mid && s.user_id == u)
            (fun s => { s with status := v }) db.message_statuses } cid mid = some msg := hmsg
      unfold update_message_status
      rw [hv]
      rw [if_neg (by simp), hm₁, if_pos rfl, hmsg₁]
      simp only [hfind₂]
      have hupd : updateFirst (fun s => s.message_id == some mid && s.user_id == u)
          (fun s => { s with status := v })
          (updateFirst (fun s => s.message_id == some mid && s.user_id == u)
            (fun s => { s with status := v }) db.message_statuses)
          = updateFirst (fun s => s.message_id == some mid && s.user_id == u)
            (fun s => { s with status := v }) db.message_statuses :=
        updateFirst_eq_self hfind₂ rfl
      rw [hupd]
    · exact ⟨{ r with status := v }, hfind₂, rfl⟩

/-- Witness for C6: member `2` of the chat in `exMsgDB` sets their status
on message `13` to `delivered`. -/
theorem update_message_status_upsert_idempotent_witness :
    ∃ db₁, update_message_status exMsgDB 10 13 2 "delivered" = .ok (13, db₁) ∧
      update_message_status db₁ 10 13 2 "delivered" = .ok (13, db₁) ∧
      (∃ r, db₁.message_statuses.find?
          (fun s => s.message_id == some 13 && s.user_id == 2) = some r ∧
        r.status = "delivered") ∧
      ∀ w, valid_status w = false →
        update_message_status exMsgDB 10 13 2 w =
          .error ⟨422, "Status must be one of: sent, delivered, seen"⟩ :=
  update_message_status_upsert_idempotent exMsgDB 10 13 2 "delivered"
    rfl (by decide) ⟨⟨13, some 10, 1, "hi", none⟩, rfl⟩

/-! ### Claim C7 -/

/-- Counterexample to C7 as stated: a 60 KiB upload is rejected, but with
status code 400 (`"File size exceeds 50KB limit"`), not 413
`PayloadTooLarge` — the handler raises `HTTPException(status_code=400)`. -/
theorem upload_file_not_413_counterexample :
    upload_file exDB1 "big.bin" "application/octet-stream" (List.replicate 61440 0)
      = .error ⟨400, "File size exceeds 50KB limit"⟩ ∧ (400 : Nat) ≠ 413 := by
  constructor
  · unfold upload_file
    rw [if_pos (by rw [List.length_replicate]; norm_num)]
  · decide

/-- Claim C7 as amended: an upload whose payload exceeds the fixed
`50 * 1024`-byte cap fails with status 400 (`InvalidArgument`, not 413)
and stores no `File` row; a payload at or under the cap is stored, and a
download of the returned id yields the byte-identical payload with the
declared content type and filename. -/
theorem upload_download_roundtrip
    (db : DB) (fn ct : String) (content : List Nat) (hwf : db.wf) :
    (content.length > 50 * 1024 →
      upload_file db fn ct content = .error ⟨400, "File size exceeds 50KB limit"⟩) ∧
    (content.length ≤ 50 * 1024 →
      ∃ db', upload_file db fn ct content = .ok (db.next_id, db') ∧
        download_file db' db.next_id = .ok ⟨content, ct, fn⟩) := by
  constructor
  · intro hbig
    unfold upload_file
    rw [if_pos hbig]
  · intro hsmall
    have hfind : (db.files ++ [(⟨db.next_id, fn, ct, content.length, content⟩ : File)]).find?
        (fun f => f.id == db.next_id) = some ⟨db.next_id, fn, ct, content.length, content⟩ := by
      rw [List.find?_append]
      have h1 : db.files.find? (fun f => f.id == db.next_id) = none := by
        rw [List.find?_eq_none]
        intro f hf
        have hlt := hwf.2.2.2.2 f hf
        simp only [beq_iff_eq]
        omega
      rw [h1, List.find?_cons_of_pos _ (by simp)]
      rfl
    refine ⟨{ db with
        files := db.files ++ [⟨db.next_id, fn, ct, content.length, content⟩],
        next_id := db.next_id + 1 }, ?_, ?_⟩
    · unfold upload_file
      rw [if_neg (by omega)]
    · unfold download_file
      simp only [hfind]

/-- Witness for the amended C7: a three-byte upload into `exDB1` is
stored and downloads byte-identically with its declared content type. -/
theorem upload_download_roundtrip_witness :
    ([1, 2, 3] : List Nat).length ≤ 50 * 1024 ∧
    ∃ db', upload_file exDB1 "a.bin" "text/plain" [1, 2, 3] = .ok (exDB1.next_id, db') ∧
      download_file db' exDB1.next_id = .ok ⟨[1, 2, 3], "text/plain", "a.bin"⟩ :=
  ⟨by norm_num,
    (upload_download_roundtrip exDB1 "a.bin" "text/plain" [1, 2, 3] (by decide)).2 (by norm_num)⟩

/-! ### Claim C4 -/

/-- Counterexample to C4 as stated: user `2` exists in `exDB4` but is not
a member of chat `10`; calling `update_chat` as user `2` fails with 403
`Forbidden` ("Not authorized to update chat"), not 404 `NotFound` — the
admin check runs first and leaks the chat's existence to a non-member. -/
theorem update_chat_nonmember_forbidden_counterexample :
    is_member exDB4 10 2 = false ∧
    update_chat exDB4 10 2 ⟨some "x"⟩ = .error ⟨403, "Not authorized to update chat"⟩ :=
  ⟨rfl, rfl⟩

/-- Claim C4 as amended: for a non-member, the member-gated operations —
reading a chat, posting, editing or deleting a message, updating a message
status — fail with 404 `NotFound`, hiding the chat; but the admin-gated
operations — update chat, delete chat, add member, remove another member —
check admin rights first and fail with 403 `Forbidden`, so they do reveal
the chat to non-members. -/
theorem nonmember_visibility
    (db : DB) (cid u : Nat) (hm : is_member db cid u = false) :
    read_chat db cid u = .error ⟨404, "Chat not found"⟩ ∧
    (∀ p, create_message db cid u p = .error ⟨404, "Chat not found"⟩) ∧
    (∀ mid p, update_message db cid mid u p = .error ⟨404, "Chat not found"⟩) ∧
    (∀ mid, delete_message db cid mid u = .error ⟨404, "Chat not found"⟩) ∧
    (∀ mid v, valid_status v = true →
      update_message_status db cid mid u v = .error ⟨404, "Chat not found"⟩) ∧
    (∀ p, update_chat db cid u p = .error ⟨403, "Not authorized to update chat"⟩) ∧
    delete_chat db cid u = .error ⟨403, "Not authorized to delete chat"⟩ ∧
    (∀ uid, add_chat_member db cid uid u = .error ⟨403, "Not authorized to add members"⟩) ∧
    (∀ uid, uid ≠ u → remove_chat_member db cid uid u
      = .error ⟨403, "Not authorized to remove members"⟩) := by
  have hadm := not_admin_of_not_member hm
  refine ⟨?_, ?_, ?_, ?_, ?_, ?_, ?_, ?_, ?_⟩
  · unfold read_chat
    rw [hm]
    rfl
  · intro p
    unfold create_message
    rw [hm]
    rfl
  · intro mid p
    unfold update_message
    rw [hm]
    rfl
  · intro mid
    unfold delete_message
    rw [member_find?_eq_none hm]
  · intro mid v hv
    unfold update_message_status
    rw [hv]
    rw [if_neg (by simp), hm]
    rfl
  · intro p
    unfold update_chat
    rw [hadm]
    rfl
  · unfold delete_chat
    rw [hadm]
    rfl
  · intro uid
    unfold add_chat_member
    rw [hadm]
    rfl
  · intro uid hne
    unfold remove_chat_member
    rw [hadm]
    have huid : (u == uid) = false := beq_eq_false_iff_ne.mpr (Ne.symm hne)
    rw [huid]
    rfl

/-- Witness for the amended C4 at `exDB4` with non-member user `2`. -/
theorem nonmember_visibility_witness :
    read_chat exDB4 10 2 = .error ⟨404, "Chat not found"⟩ ∧
    (∀ p, create_message exDB4 10 2 p = .error ⟨404, "Chat not found"⟩) ∧
    (∀ mid p, update_message exDB4 10 mid 2 p = .error ⟨404, "Chat not found"⟩) ∧
    (∀ mid, delete_message exDB4 10 mid 2 = .error ⟨404, "Chat not found"⟩) ∧
    (∀ mid v, valid_status v = true →
      update_message_status exDB4 10 mid 2 v = .error ⟨404, "Chat not found"⟩) ∧
    (∀ p, update_chat exDB4 10 2 p = .error ⟨403, "Not authorized to update chat"⟩) ∧
    delete_chat exDB4 10 2 = .error ⟨403, "Not authorized to delete chat"⟩ ∧
    (∀ uid, add_chat_member exDB4 10 uid 2 = .error ⟨403, "Not authorized to add members"⟩) ∧
    (∀ uid, uid ≠ 2 → remove_chat_member exDB4 10 uid 2
      = .error ⟨403, "Not authorized to remove members"⟩) :=
  nonmember_visibility exDB4 10 2 (by decide)

/-! ### Claim C9 -/

/-- Counterexample to C9 as stated: user `2` is a current member of the
individual (non-group) chat `10` of `exIndDB`, yet removing themself
fails with 400 ("Cannot remove members from individual chat") — self
removal does not always succeed. -/
theorem remove_self_individual_counterexample :
    is_member exIndDB 10 2 = true ∧
    remove_chat_member exIndDB 10 2 2
      = .error ⟨400, "Cannot remove members from individual chat"⟩ :=
  ⟨rfl, rfl⟩

/-- Claim C9 as amended: in a group chat, self-removal by any current
member always succeeds without admin rights and deletes that membership
row (the member is gone afterwards); a non-admin caller removing a
different user fails with 403 `Forbidden`; but on a non-group chat every
removal — self-removal included — fails with 400 (see the
counterexample). -/
theorem remove_member_self_or_forbidden
    (db : DB) (cid u w : Nat) (c : Chat)
    (hfind : db.chats.find? (fun x => x.id == cid) = some c)
    (hg : c.is_group = true)
    (hmem : is_member db cid u = true)
    (huniq : members_unique db) :
    (∃ v db', remove_chat_member db cid u u = .ok (v, db') ∧
      db'.chat_members = db.chat_members.eraseP
        (fun m => m.chat_id == some cid && m.user_id == u) ∧
      is_member db' cid u = false) ∧
    (is_chat_admin db cid w = false → w ≠ u →
      remove_chat_member db cid u w = .error ⟨403, "Not authorized to remove members"⟩) := by
  constructor
  · obtain ⟨mrow, hmrow⟩ := member_find?_isSome hmem
    refine ⟨get_chat_response
        { db with
          chat_members := db.chat_members.eraseP
              (fun m => m.chat_id == some cid && m.user_id == u) }
        cid,
      { db with
        chat_members := db.chat_members.eraseP
            (fun m => m.chat_id == some cid && m.user_id == u) },
      ?_, rfl, ?_⟩
    · unfold remove_chat_member
      have hcond : (is_chat_admin db cid u || u == u) = true := by simp
      rw [hcond, if_pos rfl, hfind]
      simp only [hg, Bool.not_true, Bool.false_eq_true, if_false, hmrow]
    · have hpw : db.chat_members.Pairwise (fun x y =>
          ¬((x.chat_id == some cid && x.user_id == u) = true ∧
            (y.chat_id == some cid && y.user_id == u) = true)) := by
        refine huniq.imp ?_
        intro x y hxy hc
        obtain ⟨hx, hy⟩ := hc
        simp only [Bool.and_eq_true, beq_iff_eq] at hx hy
        exact hxy ⟨by rw [hx.1]; simp, hx.1.trans hy.1.symm, hx.2.trans hy.2.symm⟩
      have hall := eraseP_no_match hpw
      show (db.chat_members.eraseP
          (fun m => m.chat_id == some cid && m.user_id == u)).any
        (fun m => m.chat_id == some cid && m.user_id == u) = false
      rw [List.any_eq_false]
      intro m hmm
      rw [hall m hmm]
      simp
  · intro hadm hne
    unfold remove_chat_member
    have hcond : (is_chat_admin db cid w || w == u) = false := by
      rw [hadm, beq_eq_false_iff_ne.mpr hne]
      rfl
    rw [hcond]
    rfl

/-- Witness for the amended C9 in the group chat of `gDB`: member `2`
removes themself successfully and their row is gone; non-admin `3` cannot
remove `2`. -/
theorem remove_member_self_or_forbidden_witness :
    (∃ v db', remove_chat_member gDB 10 2 2 = .ok (v, db') ∧
      db'.chat_members = gDB.chat_members.eraseP
        (fun m => m.chat_id == some 10 && m.user_id == 2) ∧
      is_member db' 10 2 = false) ∧
    (is_chat_admin gDB 10 3 = false → (3 : Nat) ≠ 2 →
      remove_chat_member gDB 10 2 3 = .error ⟨403, "Not authorized to remove members"⟩) :=
  remove_member_self_or_forbidden gDB 10 2 3 ⟨10, some "g", true⟩
    rfl rfl (by decide) (by decide)

/-! ### Claim C3 -/

/-- Claim C3 is what the spec requires, but the code does not do it: in
`exMsgDB`, message `13` has the two status rows `14` and `15`; the sender
deletes the message and `delete_message` removes only the `Message` row.
`models.Message.statuses` configures no delete cascade, so the ORM nulls
the rows' `message_id` instead of deleting them: both `MessageStatus` rows
survive the delete as orphans — the store does not end up with the rows
removed, contradicting the claim. -/
theorem delete_message_orphans_statuses :
    delete_message exMsgDB 10 13 1 = .ok { exMsgDB with
      messages := [],
      message_statuses := [⟨14, none, 1, "seen"⟩, ⟨15, none, 2, "sent"⟩] } :=
  rfl

/-! ### Claim C8: the invariant is preserved by every endpoint -/

theorem opt_ltb_mono {o : Option Nat} {n n' : Nat} (h : opt_ltb o n = true) (hn : n ≤ n') :
    opt_ltb o n' = true := by
  cases o with
  | none => rfl
  | some x =>
    simp only [opt_ltb, decide_eq_true_eq] at h ⊢
    omega

theorem wf_bump {db : DB} (h : db.wf) {n : Nat} (hn : db.next_id ≤ n) :
    (∀ c ∈ db.chats, c.id < n) ∧
    (∀ m ∈ db.chat_members, m.id < n ∧ opt_ltb m.chat_id n = true) ∧
    (∀ m ∈ db.messages, m.id < n ∧ opt_ltb m.chat_id n = true) ∧
    (∀ s ∈ db.message_statuses, s.id < n ∧ opt_ltb s.message_id n = true) ∧
    (∀ f ∈ db.files, f.id < n) := by
  obtain ⟨hc, hcm, hmsg, hst, hf⟩ := h
  exact ⟨fun c hx => lt_of_lt_of_le (hc c hx) hn,
    fun m hx => ⟨lt_of_lt_of_le (hcm m hx).1 hn, opt_ltb_mono (hcm m hx).2 hn⟩,
    fun m hx => ⟨lt_of_lt_of_le (hmsg m hx).1 hn, opt_ltb_mono (hmsg m hx).2 hn⟩,
    fun s hx => ⟨lt_of_lt_of_le (hst s hx).1 hn, opt_ltb_mono (hst s hx).2 hn⟩,
    fun f hx => lt_of_lt_of_le (hf f hx) hn⟩

theorem create_chat_ok_state {db : DB} {u : Nat} {p : ChatCreate} {v : ChatView} {db' : DB}
    (h : create_chat db u p = .ok (v, db')) :
    db' = db ∨ db' = (create_chat_new db u p (resolved_member_list u p.member_ids)).2 := by
  unfold create_chat at h
  split at h
  · exact absurd h (by simp)
  · split at h
    · split at h
      · split at h
        · left
          simp only [Except.ok.injEq, Prod.mk.injEq] at h
          exact h.2.symm
        · right
          simp only [Except.ok.injEq] at h
          rw [h]
      · right
        simp only [Except.ok.injEq] at h
        rw [h]
    · right
      simp only [Except.ok.injEq] at h
      rw [h]

theorem wf_create_chat_new {db : DB} {u : Nat} {p : ChatCreate} {l : List Nat}
    (hwf : db.wf) : (create_chat_new db u p l).2.wf := by
  obtain ⟨hc, hcm, hmsg, hst, hf⟩ :=
    @wf_bump db hwf (db.next_id + 1 + l.length) (by omega)
  rw [create_chat_new_state]
  refine ⟨?_, ?_, hmsg, hst, hf⟩
  · intro c hcmem
    rcases List.mem_append.mp hcmem with hcold | hcnew
    · exact hc c hcold
    · have hce : c = ⟨db.next_id, p.name, p.is_group⟩ := by simpa using hcnew
      rw [hce]
      show db.next_id < db.next_id + 1 + l.length
      omega
  · intro m hmem
    rcases List.mem_append.mp hmem with hmold | hmnew
    · exact hcm m hmold
    · obtain ⟨h1, h2⟩ := chat_member_rows_id_bounds hmnew
      refine ⟨h2, ?_⟩
      show opt_ltb m.chat_id (db.next_id + 1 + l.length) = true
      rw [chat_member_rows_chat_id hmnew]
      simp only [opt_ltb, decide_eq_true_eq]
      omega

theorem unique_create_chat_new {db : DB} {u : Nat} {p : ChatCreate} {l : List Nat}
    (hwf : db.wf) (huniq : members_unique db) (hl : l.Nodup) :
    members_unique (create_chat_new db u p l).2 := by
  show List.Pairwise (fun x y => ¬ same_membership x y)
    (db.chat_members ++ chat_member_rows db.next_id u l)
  rw [List.pairwise_append]
  refine ⟨huniq, ?_, ?_⟩
  · unfold chat_member_rows
    exact number_rows_pairwise (fun i a j b hab hsame => hab hsame.2.2) hl _
  · intro x hx y hy hsame
    have hxb := (hwf.2.1 x hx).2
    have hyc := chat_member_rows_chat_id hy
    obtain ⟨hne, hcheq, _⟩ := hsame
    rw [hyc] at hcheq
    rw [hcheq] at hxb
    simp only [opt_ltb, decide_eq_true_eq] at hxb
    omega

theorem inv_create_chat {db : DB} {u : Nat} {p : ChatCreate} {v : ChatView} {db' : DB}
    (hinv : db_inv db) (h : create_chat db u p = .ok (v, db')) : db_inv db' := by
  rcases create_chat_ok_state h with rfl | heq
  · exact hinv
  · rw [heq]
    exact ⟨wf_create_chat_new hinv.1,
      unique_create_chat_new hinv.1 hinv.2 (resolved_nodup u p.member_ids)⟩

theorem update_chat_ok_state {db : DB} {cid u : Nat} {p : ChatUpdate} {v : ChatView} {db' : DB}
    (h : update_chat db cid u p = .ok (v, db')) :
    db' = { db with chats := db.chats.map (fun c =>
      if c.id == cid then
        match p.name with
        | some n => { c with name := some n }
        | none => c
      else c) } := by
  unfold update_chat at h
  split at h
  · split at h
    · exact absurd h (by simp)
    · simp only [Except.ok.injEq, Prod.mk.injEq] at h
      exact h.2.symm
  · exact absurd h (by simp)

theorem chat_rename_id (p : ChatUpdate) (cid : Nat) (c : Chat) :
    (if c.id == cid then
      match p.name with
      | some n => { c with name := some n }
      | none => c
    else c).id = c.id := by
  split
  · split <;> rfl
  · rfl

theorem inv_update_chat {db : DB} {cid u : Nat} {p : ChatUpdate} {v : ChatView} {db' : DB}
    (hinv : db_inv db) (h : update_chat db cid u p = .ok (v, db')) : db_inv db' := by
  rw [update_chat_ok_state h]
  obtain ⟨⟨hc, hcm, hmsg, hst, hf⟩, huniq⟩ := hinv
  refine ⟨⟨?_, hcm, hmsg, hst, hf⟩, huniq⟩
  intro c hcmem
  have hcmem' : c ∈ db.chats.map (fun c =>
      if c.id == cid then
        match p.name with
        | some n => { c with name := some n }
        | none => c
      else c) := hcmem
  rw [List.mem_map] at hcmem'
  obtain ⟨c₀, hc₀, hce⟩ := hcmem'
  show c.id < db.next_id
  rw [← hce, chat_rename_id]
  exact hc c₀ hc₀

theorem delete_chat_ok_state {db : DB} {cid u : Nat} {db' : DB}
    (h : delete_chat db cid u = .ok db') :
    db' = { db with
      chats := db.chats.filter (fun c => !(c.id == cid)),
      chat_members := db.chat_members.map (fun m =>
        if m.chat_id == some cid then { m with chat_id := none } else m),
      messages := db.messages.map (fun m =>
        if m.chat_id == some cid then { m with chat_id := none } else m) } := by
  unfold delete_chat at h
  split at h
  · split at h
    · exact absurd h (by simp)
    · simp only [Except.ok.injEq] at h
      exact h.symm
  · exact absurd h (by simp)

theorem delete_chat_null_same {cid : Nat} {x y : ChatMember}
    (hxy : ¬ same_membership x y) :
    ¬ same_membership
      (if x.chat_id == some cid then { x with chat_id := none } else x)
      (if y.chat_id == some cid then { y with chat_id := none } else y) := by
  intro hs
  by_cases hx : x.chat_id == some cid
  · rw [if_pos hx] at hs
    exact hs.1 rfl
  · rw [if_neg hx] at hs
    by_cases hy : y.chat_id == some cid
    · rw [if_pos hy] at hs
      exact hs.1 hs.2.1
    · rw [if_neg hy] at hs
      exact hxy hs

theorem inv_delete_chat {db : DB} {cid u : Nat} {db' : DB}
    (hinv : db_inv db) (h : delete_chat db cid u = .ok db') : db_inv db' := by
  rw [delete_chat_ok_state h]
  obtain ⟨⟨hc, hcm, hmsg, hst, hf⟩, huniq⟩ := hinv
  refine ⟨⟨?_, ?_, ?_, hst, hf⟩, ?_⟩
  · intro c hcmem
    have hcmem' : c ∈ db.chats.filter (fun c => !(c.id == cid)) := hcmem
    rw [List.mem_filter] at hcmem'
    exact hc c hcmem'.1
  · intro m hmem
    have hmem' : m ∈ db.chat_members.map (fun m =>
        if m.chat_id == some cid then { m with chat_id := none } else m) := hmem
    rw [List.mem_map] at hmem'
    obtain ⟨m₀, hm₀, hme⟩ := hmem'
    obtain ⟨h1, h2⟩ := hcm m₀ hm₀
    rw [← hme]
    by_cases hmc : m₀.chat_id == some cid
    · rw [if_pos hmc]
      exact ⟨h1, rfl⟩
    · rw [if_neg hmc]
      exact ⟨h1, h2⟩
  · intro m hmem
    have hmem' : m ∈ db.messages.map (fun m =>
        if m.chat_id == some cid then { m with chat_id := none } else m) := hmem
    rw [List.mem_map] at hmem'
    obtain ⟨m₀, hm₀, hme⟩ := hmem'
    obtain ⟨h1, h2⟩ := hmsg m₀ hm₀
    rw [← hme]
    by_cases hmc : m₀.chat_id == some cid
    · rw [if_pos hmc]
      exact ⟨h1, rfl⟩
    · rw [if_neg hmc]
      exact ⟨h1, h2⟩
  · show List.Pairwise _ (db.chat_members.map (fun m =>
      if m.chat_id == some cid then { m with chat_id := none } else m))
    rw [List.pairwise_map]
    exact huniq.imp delete_chat_null_same

theorem add_chat_member_ok_state {db : DB} {cid uid u : Nat} {v : ChatView} {db' : DB}
    (h : add_chat_member db cid uid u = .ok (v, db')) :
    is_member db cid uid = false ∧
    (∃ c, db.chats.find? (fun c => c.id == cid) = some c) ∧
    db' = { db with
      chat_members := db.chat_members ++ [⟨db.next_id, some cid, uid, false⟩],
      next_id := db.next_id + 1 } := by
  unfold add_chat_member at h
  split at h
  · split at h
    · exact absurd h (by simp)
    next c hceq =>
      split at h
      · exact absurd h (by simp)
      · split at h
        · exact absurd h (by simp)
        · split at h
          next hmem => exact absurd h (by simp)
          next hmem =>
            refine ⟨by simpa using hmem, ⟨c, hceq⟩, ?_⟩
            simp only [Except.ok.injEq, Prod.mk.injEq] at h
            exact h.2.symm
  · exact absurd h (by simp)

theorem inv_add_chat_member {db : DB} {cid uid u : Nat} {v : ChatView} {db' : DB}
    (hinv : db_inv db) (h : add_chat_member db cid uid u = .ok (v, db')) : db_inv db' := by
  obtain ⟨hmem, ⟨c, hceq⟩, heq⟩ := add_chat_member_ok_state h
  rw [heq]
  obtain ⟨hwf, huniq⟩ := hinv
  have hcid : cid < db.next_id := by
    have hcm := List.mem_of_find?_eq_some hceq
    have hcc : (c.id == cid) = true :=
      @List.find?_some _ (fun c => c.id == cid) c db.chats hceq
    rw [beq_iff_eq] at hcc
    rw [← hcc]
    exact hwf.1 c hcm
  obtain ⟨hc, hcm, hmsg, hst, hf⟩ := @wf_bump db hwf (db.next_id + 1) (by omega)
  refine ⟨⟨hc, ?_, hmsg, hst, hf⟩, ?_⟩
  · intro m hmm
    rcases List.mem_append.mp hmm with hmold | hmnew
    · exact hcm m hmold
    · have hme : m = ⟨db.next_id, some cid, uid, false⟩ := by simpa using hmnew
      constructor
      · rw [hme]
        show db.next_id < db.next_id + 1
        omega
      · rw [hme]
        show opt_ltb (some cid) (db.next_id + 1) = true
        simp only [opt_ltb, decide_eq_true_eq]
        omega
  · show List.Pairwise _ (db.chat_members ++ [(⟨db.next_id, some cid, uid, false⟩ : ChatMember)])
    rw [List.pairwise_append]
    refine ⟨huniq, List.pairwise_singleton _ _, ?_⟩
    intro x hx y hy hsame
    have hye : y = ⟨db.next_id, some cid, uid, false⟩ := by simpa using hy
    rw [hye] at hsame
    obtain ⟨hne, hcheq, hueq⟩ := hsame
    have hany : db.chat_members.any (fun m => m.chat_id == some cid && m.user_id == uid) = true := by
      rw [List.any_eq_true]
      refine ⟨x, hx, ?_⟩
      rw [Bool.and_eq_true, beq_iff_eq, beq_iff_eq]
      exact ⟨hcheq, hueq⟩
    unfold is_member at hmem
    rw [hany] at hmem
    exact Bool.noConfusion hmem

theorem remove_chat_member_ok_state {db : DB} {cid uid u : Nat} {v : ChatView} {db' : DB}
    (h : remove_chat_member db cid uid u = .ok (v, db')) :
    db' = { db with
      chat_members := db.chat_members.eraseP
        (fun m => m.chat_id == some cid && m.user_id == uid) } := by
  unfold remove_chat_member at h
  split at h
  · split at h
    · exact absurd h (by simp)
    · split at h
      · exact absurd h (by simp)
      · split at h
        · exact absurd h (by simp)
        · simp only [Except.ok.injEq, Prod.mk.injEq] at h
          exact h.2.symm
  · exact absurd h (by simp)

theorem inv_remove_chat_member {db : DB} {cid uid u : Nat} {v : ChatView} {db' : DB}
    (hinv : db_inv db) (h : remove_chat_member db cid uid u = .ok (v, db')) : db_inv db' := by
  rw [remove_chat_member_ok_state h]
  obtain ⟨⟨hc, hcm, hmsg, hst, hf⟩, huniq⟩ := hinv
  have hsub : (db.chat_members.eraseP
      (fun m => m.chat_id == some cid && m.user_id == uid)).Sublist db.chat_members :=
    List.eraseP_sublist db.chat_members
  refine ⟨⟨hc, ?_, hmsg, hst, hf⟩, ?_⟩
  · intro m hmm
    exact hcm m (hsub.subset hmm)
  · exact List.Pairwise.sublist hsub huniq

theorem message_status_rows_id_bounds {mid sender : Nat} {members : List ChatMember}
    {s : MessageStatus} (h : s ∈ message_status_rows mid sender members) :
    mid + 1 ≤ s.id ∧ s.id < mid + 1 + members.length := by
  obtain ⟨j, m, _, h1, h2, rfl⟩ := mem_number_rows h
  exact ⟨h1, h2⟩

theorem create_message_ok_state {db : DB} {cid u : Nat} {p : MessageCreate} {mid : Nat}
    {db' : DB} (h : create_message db cid u p = .ok (mid, db')) :
    is_member db cid u = true ∧
    db' = { db with
      messages := db.messages ++ [⟨db.next_id, some cid, u, p.content, p.file_id⟩],
      message_statuses := db.message_statuses ++
        message_status_rows db.next_id u (members_of db cid),
      next_id := db.next_id + 1 + (members_of db cid).length } := by
  unfold create_message at h
  split at h
  next hmem =>
    split at h
    · simp only [Except.ok.injEq, Prod.mk.injEq] at h
      exact ⟨hmem, h.2.symm⟩
    · exact absurd h (by simp)
  next hmem => exact absurd h (by simp)

theorem member_chat_id_lt {db : DB} {cid u : Nat}
    (hwf : db.wf) (h : is_member db cid u = true) : cid < db.next_id := by
  unfold is_member at h
  rw [List.any_eq_true] at h
  obtain ⟨m, hm, hb⟩ := h
  rw [Bool.and_eq_true, beq_iff_eq] at hb
  have := (hwf.2.1 m hm).2
  rw [hb.1] at this
  simp only [opt_ltb, decide_eq_true_eq] at this
  exact this

theorem inv_create_message {db : DB} {cid u : Nat} {p : MessageCreate} {mid : Nat} {db' : DB}
    (hinv : db_inv db) (h : create_message db cid u p = .ok (mid, db')) : db_inv db' := by
  obtain ⟨hmem, heq⟩ := create_message_ok_state h
  rw [heq]
  obtain ⟨hwf, huniq⟩ := hinv
  have hcid := member_chat_id_lt hwf hmem
  obtain ⟨hc, hcm, hmsg, hst, hf⟩ :=
    @wf_bump db hwf (db.next_id + 1 + (members_of db cid).length) (by omega)
  refine ⟨⟨hc, hcm, ?_, ?_, hf⟩, huniq⟩
  · intro m hmm
    rcases List.mem_append.mp hmm with hmold | hmnew
    · exact hmsg m hmold
    · have hme : m = ⟨db.next_id, some cid, u, p.content, p.file_id⟩ := by simpa using hmnew
      constructor
      · rw [hme]
        show db.next_id < db.next_id + 1 + (members_of db cid).length
        omega
      · rw [hme]
        show opt_ltb (some cid) (db.next_id + 1 + (members_of db cid).length) = true
        simp only [opt_ltb, decide_eq_true_eq]
        omega
  · intro s hss
    rcases List.mem_append.mp hss with hsold | hsnew
    · exact hst s hsold
    · obtain ⟨h1, h2⟩ := message_status_rows_id_bounds hsnew
      refine ⟨h2, ?_⟩
      show opt_ltb s.message_id (db.next_id + 1 + (members_of db cid).length) = true
      rw [(message_status_rows_spec hsnew).1]
      simp only [opt_ltb, decide_eq_true_eq]
      omega

theorem update_message_ok_state {db : DB} {cid mid u : Nat} {p : MessageUpdate} {r : Nat}
    {db' : DB} (h : update_message db cid mid u p = .ok (r, db')) :
    db' = { db with messages := db.messages.map (fun m =>
      if m.id == mid then
        match p.content with
        | some c => { m with content := c }
        | none => m
      else m) } := by
  unfold update_message at h
  split at h
  · split at h
    · exact absurd h (by simp)
    · split at h
      · exact absurd h (by simp)
      · simp only [Except.ok.injEq, Prod.mk.injEq] at h
        exact h.2.symm
  · exact absurd h (by simp)

theorem message_edit_id (p : MessageUpdate) (mid : Nat) (m : Message) :
    (if m.id == mid then
      match p.content with
      | some c => { m with content := c }
      | none => m
    else m).id = m.id := by
  split
  · split <;> rfl
  · rfl

theorem message_edit_chat_id (p : MessageUpdate) (mid : Nat) (m : Message) :
    (if m.id == mid then
      match p.content with
      | some c => { m with content := c }
      | none => m
    else m).chat_id = m.chat_id := by
  split
  · split <;> rfl
  · rfl

theorem inv_update_message {db : DB} {cid mid u : Nat} {p : MessageUpdate} {r : Nat} {db' : DB}
    (hinv : db_inv db) (h : update_message db cid mid u p = .ok (r, db')) : db_inv db' := by
  rw [update_message_ok_state h]
  obtain ⟨⟨hc, hcm, hmsg, hst, hf⟩, huniq⟩ := hinv
  refine ⟨⟨hc, hcm, ?_, hst, hf⟩, huniq⟩
  intro m hmm
  have hmm' : m ∈ db.messages.map (fun m =>
      if m.id == mid then
        match p.content with
        | some c => { m with content := c }
        | none => m
      else m) := hmm
  rw [List.mem_map] at hmm'
  obtain ⟨m₀, hm₀, hme⟩ := hmm'
  obtain ⟨h1, h2⟩ := hmsg m₀ hm₀
  constructor
  · show m.id < db.next_id
    rw [← hme, message_edit_id]
    exact h1
  · show opt_ltb m.chat_id db.next_id = true
    rw [← hme, message_edit_chat_id]
    exact h2

theorem delete_message_ok_state {db : DB} {cid mid u : Nat} {db' : DB}
    (h : delete_message db cid mid u = .ok db') :
    db' = { db with
      messages := db.messages.filter (fun m => !(m.id == mid)),
      message_statuses := db.message_statuses.map (fun s =>
        if s.message_id == some mid then { s with message_id := none } else s) } := by
  unfold delete_message at h
  split at h
  · exact absurd h (by simp)
  · split at h
    · exact absurd h (by simp)
    · split at h
      · simp only [Except.ok.injEq] at h
        exact h.symm
      · exact absurd h (by simp)

theorem inv_delete_message {db : DB} {cid mid u : Nat} {db' : DB}
    (hinv : db_inv db) (h : delete_message db cid mid u = .ok db') : db_inv db' := by
  rw [delete_message_ok_state h]
  obtain ⟨⟨hc, hcm, hmsg, hst, hf⟩, huniq⟩ := hinv
  refine ⟨⟨hc, hcm, ?_, ?_, hf⟩, huniq⟩
  · intro m hmm
    have hmm' : m ∈ db.messages.filter (fun m => !(m.id == mid)) := hmm
    rw [List.mem_filter] at hmm'
    exact hmsg m hmm'.1
  · intro s hss
    have hss' : s ∈ db.message_statuses.map (fun s =>
        if s.message_id == some mid then { s with message_id := none } else s) := hss
    rw [List.mem_map] at hss'
    obtain ⟨s₀, hs₀, hse⟩ := hss'
    obtain ⟨h1, h2⟩ := hst s₀ hs₀
    rw [← hse]
    by_cases hsm : s₀.message_id == some mid
    · rw [if_pos hsm]
      exact ⟨h1, rfl⟩
    · rw [if_neg hsm]
      exact ⟨h1, h2⟩

theorem find_message_id_lt {db : DB} {cid mid : Nat} {msg : Message}
    (hwf : db.wf) (h : find_message db cid mid = some msg) : mid < db.next_id := by
  unfold find_message at h
  have hmm := List.mem_of_find?_eq_some h
  have hp : (msg.id == mid && msg.chat_id == some cid) = true :=
    @List.find?_some _ (fun m => m.id == mid && m.chat_id == some cid) msg db.messages h
  rw [Bool.and_eq_true, beq_iff_eq] at hp
  rw [← hp.1]
  exact (hwf.2.2.1 msg hmm).1

theorem update_message_status_ok_state {db : DB} {cid mid u : Nat} {v : String} {r : Nat}
    {db' : DB} (h : update_message_status db cid mid u v = .ok (r, db')) :
    (∃ msg, find_message db cid mid = some msg) ∧
    (db' = { db with
        message_statuses := db.message_statuses ++ [⟨db.next_id, some mid, u, v⟩],
        next_id := db.next_id + 1 } ∨
      db' = { db with
        message_statuses := updateFirst
          (fun s => s.message_id == some mid && s.user_id == u)
          (fun s => { s with status := v }) db.message_statuses }) := by
  unfold update_message_status at h
  split at h
  · exact absurd h (by simp)
  · split at h
    · split at h
      · exact absurd h (by simp)
      next msg hmsg =>
        split at h
        · simp only [Except.ok.injEq, Prod.mk.injEq] at h
          exact ⟨⟨msg, hmsg⟩, Or.inl h.2.symm⟩
        · simp only [Except.ok.injEq, Prod.mk.injEq] at h
          exact ⟨⟨msg, hmsg⟩, Or.inr h.2.symm⟩
    · exact absurd h (by simp)

theorem inv_update_message_status {db : DB} {cid mid u : Nat} {v : String} {r : Nat} {db' : DB}
    (hinv : db_inv db) (h : update_message_status db cid mid u v = .ok (r, db')) :
    db_inv db' := by
  obtain ⟨⟨msg, hmsg⟩, heq⟩ := update_message_status_ok_state h
  obtain ⟨hwf, huniq⟩ := hinv
  have hmid := find_message_id_lt hwf hmsg
  rcases heq with heq | heq
  · rw [heq]
    obtain ⟨hc, hcm, hm2, hst, hf⟩ := @wf_bump db hwf (db.next_id + 1) (by omega)
    refine ⟨⟨hc, hcm, hm2, ?_, hf⟩, huniq⟩
    intro s hss
    rcases List.mem_append.mp hss with hsold | hsnew
    · exact hst s hsold
    · have hse : s = ⟨db.next_id, some mid, u, v⟩ := by simpa using hsnew
      constructor
      · rw [hse]
        show db.next_id < db.next_id + 1
        omega
      · rw [hse]
        show opt_ltb (some mid) (db.next_id + 1) = true
        simp only [opt_ltb, decide_eq_true_eq]
        omega
  · rw [heq]
    obtain ⟨hc, hcm, hm2, hst, hf⟩ := hwf
    refine ⟨⟨hc, hcm, hm2, ?_, hf⟩, huniq⟩
    intro s hss
    have hss' : s ∈ updateFirst (fun s => s.message_id == some mid && s.user_id == u)
        (fun s => { s with status := v }) db.message_statuses := hss
    rcases mem_updateFirst hss' with hold | ⟨y, hy, hse⟩
    · exact hst s hold
    · obtain ⟨h1, h2⟩ := hst y hy
      rw [hse]
      exact ⟨h1, h2⟩

theorem upload_file_ok_state {db : DB} {fn ct : String} {content : List Nat} {fid : Nat}
    {db' : DB} (h : upload_file db fn ct content = .ok (fid, db')) :
    db' = { db with
      files := db.files ++ [⟨db.next_id, fn, ct, content.length, content⟩],
      next_id := db.next_id + 1 } := by
  unfold upload_file at h
  split at h
  · exact absurd h (by simp)
  · simp only [Except.ok.injEq, Prod.mk.injEq] at h
    exact h.2.symm

theorem inv_upload_file {db : DB} {fn ct : String} {content : List Nat} {fid : Nat} {db' : DB}
    (hinv : db_inv db) (h : upload_file db fn ct content = .ok (fid, db')) : db_inv db' := by
  rw [upload_file_ok_state h]
  obtain ⟨hwf, huniq⟩ := hinv
  obtain ⟨hc, hcm, hm2, hst, hf⟩ := @wf_bump db hwf (db.next_id + 1) (by omega)
  refine ⟨⟨hc, hcm, hm2, hst, ?_⟩, huniq⟩
  intro f hff
  rcases List.mem_append.mp hff with hfold | hfnew
  · exact hf f hfold
  · have hfe : f = ⟨db.next_id, fn, ct, content.length, content⟩ := by simpa using hfnew
    rw [hfe]
    show db.next_id < db.next_id + 1
    omega

theorem delete_file_ok_state {db : DB} {fid u : Nat} {db' : DB}
    (h : delete_file db fid u = .ok db') :
    db' = { db with
      files := db.files.filter (fun f => !(f.id == fid)),
      messages := db.messages.map (fun m =>
        if m.file_id == some fid then { m with file_id := none } else m) } := by
  unfold delete_file at h
  split at h
  · exact absurd h (by simp)
  · simp only [Except.ok.injEq] at h
    exact h.symm

theorem inv_delete_file {db : DB} {fid u : Nat} {db' : DB}
    (hinv : db_inv db) (h : delete_file db fid u = .ok db') : db_inv db' := by
  rw [delete_file_ok_state h]
  obtain ⟨⟨hc, hcm, hmsg, hst, hf⟩, huniq⟩ := hinv
  refine ⟨⟨hc, hcm, ?_, hst, ?_⟩, huniq⟩
  · intro m hmm
    have hmm' : m ∈ db.messages.map (fun m =>
        if m.file_id == some fid then { m with file_id := none } else m) := hmm
    rw [List.mem_map] at hmm'
    obtain ⟨m₀, hm₀, hme⟩ := hmm'
    obtain ⟨h1, h2⟩ := hmsg m₀ hm₀
    rw [← hme]
    by_cases hmf : m₀.file_id == some fid
    · rw [if_pos hmf]
      exact ⟨h1, h2⟩
    · rw [if_neg hmf]
      exact ⟨h1, h2⟩
  · intro f hff
    have hff' : f ∈ db.files.filter (fun f => !(f.id == fid)) := hff
    rw [List.mem_filter] at hff'
    exact hf f hff'.1

theorem inv_step {db db' : DB} (hinv : db_inv db) (h : Step db db') : db_inv db' := by
  cases h with
  | chat_created u p v _ h => exact inv_create_chat hinv h
  | chat_updated cid u p v _ h => exact inv_update_chat hinv h
  | chat_deleted cid u _ h => exact inv_delete_chat hinv h
  | member_added cid uid u v _ h => exact inv_add_chat_member hinv h
  | member_removed cid uid u v _ h => exact inv_remove_chat_member hinv h
  | message_created cid u p mid _ h => exact inv_create_message hinv h
  | message_updated cid mid u p r _ h => exact inv_update_message hinv h
  | message_deleted cid mid u _ h => exact inv_delete_message hinv h
  | status_updated cid mid u v r _ h => exact inv_update_message_status hinv h
  | file_uploaded fn ct content fid _ h => exact inv_upload_file hinv h
  | file_deleted fid u _ h => exact inv_delete_file hinv h

theorem inv_steps {db db' : DB} (hinv : db_inv db)
    (h : Relation.ReflTransGen Step db db') : db_inv db' := by
  induction h with
  | refl => exact hinv
  | tail _ hstep ih => exact inv_step ih hstep

theorem unique_filter_pairs {db : DB} (huniq : members_unique db) (cid u : Nat) :
    (db.chat_members.filter (fun m => m.chat_id == some cid && m.user_id == u)).length ≤ 1 := by
  apply filter_len_le_one_of_pairwise
  refine huniq.imp ?_
  intro x y hxy hc
  obtain ⟨hx, hy⟩ := hc
  simp only [Bool.and_eq_true, beq_iff_eq] at hx hy
  exact hxy ⟨by rw [hx.1]; simp, hx.1.trans hy.1.symm, hx.2.trans hy.2.symm⟩

/-- Claim C8: starting from any store satisfying the fresh-id and
uniqueness invariant (any store reachable from an empty one does), after
any sequence of successful endpoint calls at most one `ChatMember` row
exists per `(chat, user)` pair; and `add_chat_member` for a user who is
already a member fails with the duplicate-membership rejection — the
spec's `Conflict`, raised by the code as 400 "User is already a member of
chat" — leaving the store unchanged. -/
theorem chat_member_uniqueness
    (db db' : DB) (hinv : db_inv db) (hsteps : Relation.ReflTransGen Step db db') :
    (∀ cid u, (db'.chat_members.filter
        (fun m => m.chat_id == some cid && m.user_id == u)).length ≤ 1) ∧
    (∀ cid uid u c, is_chat_admin db' cid u = true →
      db'.chats.find? (fun x => x.id == cid) = some c → c.is_group = true →
      user_exists db' uid = true → is_member db' cid uid = true →
      add_chat_member db' cid uid u = .error ⟨400, "User is already a member of chat"⟩) := by
  have hinv' := inv_steps hinv hsteps
  constructor
  · intro cid u
    exact unique_filter_pairs hinv'.2 cid u
  · intro cid uid u c hadm hfind hg hue hmem
    unfold add_chat_member
    rw [hadm, if_pos rfl, hfind]
    simp only [hg, hue, hmem, Bool.not_true, Bool.false_eq_true, if_false, if_true]

/-- Witness for C8 at the group-chat store `gDB` (zero further steps):
membership rows are unique, and re-adding the present member `2` as admin
`1` fails with the duplicate-membership error. -/
theorem chat_member_uniqueness_witness :
    (∀ cid u, (gDB.chat_members.filter
        (fun m => m.chat_id == some cid && m.user_id == u)).length ≤ 1) ∧
    (∀ cid uid u c, is_chat_admin gDB cid u = true →
      gDB.chats.find? (fun x => x.id == cid) = some c → c.is_group = true →
      user_exists gDB uid = true → is_member gDB cid uid = true →
      add_chat_member gDB cid uid u = .error ⟨400, "User is already a member of chat"⟩) :=
  chat_member_uniqueness gDB gDB ⟨by decide, by decide⟩ Relation.ReflTransGen.refl

end ChattingApi
